import Mathlib

set_option autoImplicit false
set_option maxHeartbeats 1000000

/- Verification development for the RethinkDB Python driver network layer
   (`rethinkdb/net.py`): response dispatch, the exact-count receive loop,
   the lazily fetching `BatchedIterator`, and the backtrace pretty-printer
   together with the caret rendering of `QueryError.location`.

   Modelling conventions: Python text is `List Char`; Python exceptions are
   explicit error values; blocking socket loops take a fuel argument and
   produce a timeout-style result when the fuel runs out (a timeout models
   an execution that has not returned yet, never a normal return). -/

/-- Model of `json.loads` applied to one payload string. The driver never
inspects the parsed value, so parsing is modelled by an injective
constructor tagging the raw payload string. -/
inductive JVal where
  | parsed (s : String)
deriving DecidableEq, Repr

/-- Modelled from the spec: the status-code enum consumed from the wire
protocol. The generated protobuf module `query_language_pb2` is not part of
the embedded source, so the enum is taken from the spec's table of consumed
status codes; `SUCCESS_PART` stands for the partial-success code
(`SUCCESS_PARTIAL` in the source) and `UNKNOWN n` for any other numeric
code. The dispatch logic itself only requires the codes to be distinct. -/
inductive Status where
  | SUCCESS_JSON
  | SUCCESS_STREAM
  | SUCCESS_PART
  | SUCCESS_EMPTY
  | RUNTIME_ERROR
  | BAD_QUERY
  | BROKEN_CLIENT
  | UNKNOWN (n : Nat)
deriving DecidableEq, Repr

/-- A decoded wire response: status code, payload items (JSON text),
error message and backtrace frames. Backtrace steps are modelled as `Nat`
values, since the driver only ever compares them for equality. -/
structure Response where
  status_code : Status
  response : List String
  error_message : String
  backtrace : List Nat
deriving DecidableEq, Repr

/-- The exceptions `Connection._run` can raise, plus `pyError` for
incidental Python exceptions (IndexError, AttributeError, unpack errors).
`executionError` models `ExecutionError`, `badQueryError` models
`BadQueryError`; both carry the message, the backtrace frames and the
original query expression (modelled opaquely as a string). `protocolError`
models the `ValueError`s raised for BROKEN_CLIENT and unknown codes. -/
inductive RunError where
  | executionError (msg : String) (backtrace : List Nat) (query : String)
  | badQueryError (msg : String) (backtrace : List Nat) (query : String)
  | protocolError (msg : String)
  | pyError (msg : String)
deriving DecidableEq, Repr

/-- The value component of the pair returned by `Connection._run`:
a single JSON value, a list of JSON values, or Python `None`. -/
inductive RunValue where
  | jsonVal (v : JVal)
  | streamVals (vs : List JVal)
  | noneVal
deriving DecidableEq, Repr

/-- `Connection._run`, from the point where the decoded response is in
hand (the socket I/O prefix is covered by `recvall_loop` below): dispatch
on `response.status_code`, returning `(value, code)` or raising.
`q` is the original query expression carried into query errors. -/
def Connection_run (q : String) (r : Response) : Except RunError (RunValue × Status) :=
  match r.status_code with
  | .SUCCESS_JSON =>
    match r.response with
    | [] => .error (.pyError "IndexError")
    | v :: _ => .ok (.jsonVal (JVal.parsed v), .SUCCESS_JSON)
  | .SUCCESS_STREAM => .ok (.streamVals (r.response.map JVal.parsed), .SUCCESS_STREAM)
  | .SUCCESS_PART => .ok (.streamVals (r.response.map JVal.parsed), .SUCCESS_PART)
  | .SUCCESS_EMPTY => .ok (.noneVal, .SUCCESS_EMPTY)
  | .RUNTIME_ERROR => .error (.executionError r.error_message r.backtrace q)
  | .BAD_QUERY => .error (.badQueryError r.error_message r.backtrace q)
  | .BROKEN_CLIENT => .error (.protocolError "RethinkDB server rejected our protocol buffer as malformed. RethinkDB client is buggy?")
  | .UNKNOWN _ => .error (.protocolError "Got unexpected status code from server")

/-- The outcome of the public `Connection.run`: a plain value, or a
`BatchedIterator` holding the first page (`data` is the `ret` value stored
unmodified) and the completion flag `code == SUCCESS_STREAM`. -/
inductive RunOutcome where
  | value (v : RunValue)
  | iterator (data : RunValue) (complete : Bool)
deriving DecidableEq, Repr

/-- The public `Connection.run`, from the point where `_run` has produced
`(ret, code)`: wrap stream/partial results into a `BatchedIterator`,
return everything else directly. -/
def Connection_run_public (q : String) (r : Response) : Except RunError RunOutcome :=
  match Connection_run q r with
  | .error e => .error e
  | .ok (ret, code) =>
    if code = .SUCCESS_STREAM ∨ code = .SUCCESS_PART then
      .ok (.iterator ret (code = .SUCCESS_STREAM))
    else
      .ok (.value ret)

/-- `Connection._recvall`: `buf = ""`, then
`while len(buf) != length: buf += self.socket.recv(length - len(buf))`.
`recv k` is the payload of the k-th call to `socket.recv` (a TCP receive
may return any nonempty chunk up to the requested size, and returns an
empty string once the peer has closed the stream). The fuel bounds the
number of loop iterations modelled; `none` means the loop had not
returned after `fuel` iterations. -/
def recvall_loop (recv : Nat → List Char) : Nat → Nat → List Char → Nat → Option (List Char)
  | 0, _, _, _ => none
  | fuel + 1, k, buf, length =>
    if buf.length = length then some buf
    else recvall_loop recv fuel (k + 1) (buf ++ recv k) length

/-- A transport that yields the two bytes "ab" and then signals
end-of-stream (every further `recv` returns the empty string) while 4
bytes were requested. -/
def eofRecv : Nat → List Char :=
  fun k => if k = 0 then ['a', 'b'] else []

/-- A transport that delivers the 4 requested bytes in two short reads. -/
def shortReadRecv : Nat → List Char :=
  fun k => if k = 0 then ['a', 'b'] else if k = 1 then ['c', 'd'] else []

lemma recvall_loop_eof_stuck (fuel k : Nat) (buf : List Char)
    (hk : 1 ≤ k) (hbuf : buf.length ≠ 4) :
    recvall_loop eofRecv fuel k buf 4 = none := by
  induction fuel generalizing k buf with
  | zero => rfl
  | succ n ih =>
    have hrecv : eofRecv k = [] := by
      simp [eofRecv]
      omega
    simp only [recvall_loop, if_neg hbuf, hrecv, List.append_nil]
    exact ih (k + 1) buf (by omega) hbuf

/-- Claim C5: the receive loop accumulates short reads until exactly the
requested count is reached (second conjunct: 4 requested bytes arriving as
two 2-byte reads produce exactly the 4-byte buffer), but an end-of-stream
before the count is reached is NOT surfaced as an error: `recv` then
returns the empty string on every call and the loop never returns, for any
number of iterations (first conjunct). This contradicts the claim's (and
the spec's) requirement that a premature end-of-stream be a fatal
transport error surfaced to the caller rather than looping forever. -/
theorem c5_recvall_eof_loops_forever :
    (∀ fuel, recvall_loop eofRecv fuel 0 [] 4 = none) ∧
    recvall_loop shortReadRecv 9 0 [] 4 = some ['a', 'b', 'c', 'd'] := by
  constructor
  · intro fuel
    match fuel with
    | 0 => rfl
    | n + 1 =>
      have h0 : recvall_loop eofRecv (n + 1) 0 [] 4
          = recvall_loop eofRecv n 1 ['a', 'b'] 4 := by
        simp [recvall_loop, eofRecv]
      rw [h0]
      exact recvall_loop_eof_stuck n 1 ['a', 'b'] (by omega) (by decide)
  · rfl

/-- One pending server reply to a CONTINUE request, as observed through
`Connection._run`: either a page of items with its status code, or an
exception raised by `_run`. -/
inductive PageResp where
  | page (items : List JVal) (status : Status)
  | fail (e : RunError)
deriving DecidableEq, Repr

/-- The state of a `BatchedIterator`: `pages` models the connection it
holds (the sequence of replies the server will deliver to its CONTINUE
requests, in order), `data` the accumulated items, `complete` the
completion flag. The token and the stored CONTINUE query are constant
after construction and play no role in the claims, so they are omitted. -/
structure BatchedIterator where
  pages : List PageResp
  data : List JVal
  complete : Bool
deriving DecidableEq, Repr

/-- `BatchedIterator.read_more`: no-op when complete; otherwise perform
one `_run` round trip. Mirroring the statement order of the source, the
completion flag is set (when the status is SUCCESS_STREAM) before the
items are appended; an exception from `_run` propagates before either
field assignment runs, so `data` and `complete` are left untouched.
An empty `pages` list models a server that never replies: the call is
still blocked, represented as a no-op that the fuelled loops above it
turn into a timeout. -/
def BatchedIterator.read_more (s : BatchedIterator) : Option RunError × BatchedIterator :=
  if s.complete then (none, s)
  else
    match s.pages with
    | [] => (none, s)
    | .fail e :: rest => (some e, { s with pages := rest })
    | .page more_data status :: rest =>
      let s1 : BatchedIterator := { s with pages := rest }
      let s2 : BatchedIterator :=
        if status = .SUCCESS_STREAM then { s1 with complete := true } else s1
      (none, { s2 with data := s2.data ++ more_data })

/-- Result of a fuelled `BatchedIterator` operation: normal return,
propagated exception, or still-running after the fuel was spent. Every
constructor carries the iterator state at that point. -/
inductive Res (α : Type) where
  | ok (val : α) (st : BatchedIterator)
  | fail (e : RunError) (st : BatchedIterator)
  | timeout (st : BatchedIterator)
deriving DecidableEq, Repr

/-- The iterator state carried by a `Res`. -/
def Res.state {α : Type} : Res α → BatchedIterator
  | .ok _ s => s
  | .fail _ s => s
  | .timeout s => s

/-- The `while not self.complete: self.read_more()` loop of
`read_until(None)`. -/
def BatchedIterator.ru_loop_none : Nat → BatchedIterator → Res Unit
  | 0, s => if s.complete then .ok () s else .timeout s
  | f + 1, s =>
    if s.complete then .ok () s
    else
      match s.read_more with
      | (some e, s') => .fail e s'
      | (none, s') => BatchedIterator.ru_loop_none f s'

/-- The `while not self.complete and index >= len(self.data)` loop of
`read_until(index)` for a concrete index. -/
def BatchedIterator.ru_loop_idx : Nat → Int → BatchedIterator → Res Unit
  | 0, index, s =>
    if ¬s.complete = true ∧ index ≥ (s.data.length : Int) then .timeout s else .ok () s
  | f + 1, index, s =>
    if ¬s.complete = true ∧ index ≥ (s.data.length : Int) then
      match s.read_more with
      | (some e, s') => .fail e s'
      | (none, s') => BatchedIterator.ru_loop_idx f index s'
    else .ok () s

/-- `BatchedIterator.read_until`: `index` is Python `None` or an integer.
With `None`, fetch until complete; with an integer at or past the
accumulated length, fetch until the index is available or the stream is
complete; otherwise do nothing. -/
def BatchedIterator.read_until (fuel : Nat) (index : Option Int) (s : BatchedIterator) : Res Unit :=
  match index with
  | none => BatchedIterator.ru_loop_none fuel s
  | some i =>
    if i ≥ (s.data.length : Int) then BatchedIterator.ru_loop_idx fuel i s
    else .ok () s

/-- Python list indexing `data[i]` with negative-index resolution from the
end; `none` is an IndexError. -/
def pyListGet (l : List JVal) (i : Int) : Option JVal :=
  if i < 0 then
    if i + (l.length : Int) < 0 then none else l.get? (i + (l.length : Int)).toNat
  else l.get? i.toNat

/-- The generator loop of `BatchedIterator.__iter__`:
`while not self.complete and index < len(self.data)` — `read_until(index)`
is invoked inside the loop exactly as in the source (where it is a no-op,
since the guard has already established `index < len(self.data)`), then
`self.data[index]` is yielded. Returns the yielded items together with the
final result. -/
def BatchedIterator.iter_loop : Nat → Nat → BatchedIterator → List JVal × Res Unit
  | 0, index, s =>
    if ¬s.complete = true ∧ index < s.data.length then ([], .timeout s) else ([], .ok () s)
  | f + 1, index, s =>
    if ¬s.complete = true ∧ index < s.data.length then
      match s.read_until f (some (index : Int)) with
      | .ok _ s' =>
        match s'.data.get? index with
        | some x =>
          let r := BatchedIterator.iter_loop f (index + 1) s'
          (x :: r.1, r.2)
        | none => ([], .fail (.pyError "IndexError") s')
      | .fail e s' => ([], .fail e s')
      | .timeout s' => ([], .timeout s')
    else ([], .ok () s)

/-- `BatchedIterator.__iter__`, drained: iteration starts at index 0. -/
def BatchedIterator.iterate (fuel : Nat) (s : BatchedIterator) : List JVal × Res Unit :=
  BatchedIterator.iter_loop fuel 0 s

/-- `BatchedIterator.__getitem__` for a non-slice (integer) index:
negative indices first `read_until(None)`, non-negative ones
`read_until(index)`; then `self.data[index]` is returned (an out-of-range
access raises IndexError). -/
def BatchedIterator.getitem (fuel : Nat) (i : Int) (s : BatchedIterator) : Res JVal :=
  match (if i < 0 then s.read_until fuel none else s.read_until fuel (some i)) with
  | .ok _ s' =>
    match pyListGet s'.data i with
    | some v => .ok v s'
    | none => .fail (.pyError "IndexError") s'
  | .fail e s' => .fail e s'
  | .timeout s' => .timeout s'

/-- A Python `slice` object: its attributes are `start`, `stop` and
`step`, each `None` or an integer. -/
structure PySlice where
  start : Option Int
  stop : Option Int
  step : Option Int
deriving DecidableEq, Repr

/-- Python attribute lookup on a `slice` object: `slice` instances expose
exactly the attributes `start`, `stop` and `step`; looking up any other
name raises AttributeError (modelled as `none`). -/
def sliceGetAttr (sl : PySlice) (attr : String) : Option (Option Int) :=
  if attr = "start" then some sl.start
  else if attr = "stop" then some sl.stop
  else if attr = "step" then some sl.step
  else none

/-- Python list slicing `l[a:b]` (step `None` or 1; the general-step case
is irrelevant here because the only call site is unreachable, see
`c10_slice_always_attribute_error`). -/
def pySliceList (l : List JVal) (sl : PySlice) : List JVal :=
  let n : Int := l.length
  let lo : Int := match sl.start with
    | none => 0
    | some i => if i < 0 then max 0 (n + i) else min i n
  let hi : Int := match sl.stop with
    | none => n
    | some i => if i < 0 then max 0 (n + i) else min i n
  ((l.drop lo.toNat).take (hi - lo).toNat)

/-- The slice branch of `BatchedIterator.__getitem__`:
`self.read_until(index.end); return self.data[index]`. Evaluation of the
argument expression `index.end` performs an attribute lookup on the slice
object before `read_until` can be called. -/
def BatchedIterator.getitem_slice (fuel : Nat) (sl : PySlice) (s : BatchedIterator) :
    Res (List JVal) :=
  match sliceGetAttr sl "end" with
  | none => .fail (.pyError "AttributeError") s
  | some idxEnd =>
    match s.read_until fuel idxEnd with
    | .ok _ s' => .ok (pySliceList s'.data sl) s'
    | .fail e s' => .fail e s'
    | .timeout s' => .timeout s'

/-- `BatchedIterator.__eq__` against a plain list:
`self.read_until(len(other)); return self.complete and self.data == other`. -/
def BatchedIterator.eq_list (fuel : Nat) (other : List JVal) (s : BatchedIterator) : Res Bool :=
  match s.read_until fuel (some (other.length : Int)) with
  | .ok _ s' => .ok (s'.complete && decide (s'.data = other)) s'
  | .fail e s' => .fail e s'
  | .timeout s' => .timeout s'


lemma read_more_mono (s : BatchedIterator) :
    s.data <+: s.read_more.2.data ∧ (s.complete = true → s.read_more.2.complete = true) := by
  obtain ⟨pages, data, complete⟩ := s
  cases complete with
  | true => simp [BatchedIterator.read_more]
  | false =>
    cases pages with
    | nil => simp [BatchedIterator.read_more]
    | cons p rest =>
      cases p with
      | fail e => simp [BatchedIterator.read_more]
      | page more st =>
        by_cases hst : st = Status.SUCCESS_STREAM
        · simp [BatchedIterator.read_more, hst, List.prefix_append]
        · simp [BatchedIterator.read_more, hst, List.prefix_append]

lemma read_more_noop (s : BatchedIterator) (hc : s.complete = true) :
    s.read_more = (none, s) := by
  simp [BatchedIterator.read_more, hc]

lemma read_more_err (s : BatchedIterator) (e : RunError) (s2 : BatchedIterator)
    (h : s.read_more = (some e, s2)) : s2.data = s.data ∧ s2.complete = s.complete := by
  obtain ⟨pages, data, complete⟩ := s
  cases complete with
  | true => simp [BatchedIterator.read_more] at h
  | false =>
    cases pages with
    | nil => simp [BatchedIterator.read_more] at h
    | cons p rest =>
      cases p with
      | fail e' =>
        simp [BatchedIterator.read_more] at h
        obtain ⟨-, h2⟩ := h
        subst h2
        exact ⟨rfl, rfl⟩
      | page more st =>
        by_cases hst : st = Status.SUCCESS_STREAM <;>
          simp [BatchedIterator.read_more, hst] at h

lemma ru_none_complete (fuel : Nat) (s : BatchedIterator) (hc : s.complete = true) :
    BatchedIterator.ru_loop_none fuel s = .ok () s := by
  cases fuel <;> simp [BatchedIterator.ru_loop_none, hc]

lemma ru_idx_complete (fuel : Nat) (i : Int) (s : BatchedIterator) (hc : s.complete = true) :
    BatchedIterator.ru_loop_idx fuel i s = .ok () s := by
  cases fuel <;> simp [BatchedIterator.ru_loop_idx, hc]

lemma ru_none_data_mono (fuel : Nat) : ∀ s : BatchedIterator,
    s.data <+: (BatchedIterator.ru_loop_none fuel s).state.data := by
  induction fuel with
  | zero =>
    intro s
    simp only [BatchedIterator.ru_loop_none]
    by_cases hc : s.complete = true
    · rw [if_pos hc]; exact List.prefix_rfl
    · rw [if_neg hc]; exact List.prefix_rfl
  | succ f ih =>
    intro s
    simp only [BatchedIterator.ru_loop_none]
    by_cases hc : s.complete = true
    · rw [if_pos hc]; exact List.prefix_rfl
    · rw [if_neg hc]
      have hm := (read_more_mono s).1
      rcases hrm : s.read_more with ⟨oe, s1⟩
      rw [hrm] at hm
      cases oe with
      | some e => exact hm
      | none => exact hm.trans (ih s1)

lemma ru_idx_data_mono (fuel : Nat) (i : Int) : ∀ s : BatchedIterator,
    s.data <+: (BatchedIterator.ru_loop_idx fuel i s).state.data := by
  induction fuel with
  | zero =>
    intro s
    simp only [BatchedIterator.ru_loop_idx]
    by_cases hg : ¬s.complete = true ∧ i ≥ (s.data.length : Int)
    · rw [if_pos hg]; exact List.prefix_rfl
    · rw [if_neg hg]; exact List.prefix_rfl
  | succ f ih =>
    intro s
    simp only [BatchedIterator.ru_loop_idx]
    by_cases hg : ¬s.complete = true ∧ i ≥ (s.data.length : Int)
    · rw [if_pos hg]
      have hm := (read_more_mono s).1
      rcases hrm : s.read_more with ⟨oe, s1⟩
      rw [hrm] at hm
      cases oe with
      | some e => exact hm
      | none => exact hm.trans (ih s1)
    · rw [if_neg hg]; exact List.prefix_rfl

lemma read_until_data_mono (fuel : Nat) (idx : Option Int) (s : BatchedIterator) :
    s.data <+: (s.read_until fuel idx).state.data := by
  cases idx with
  | none => exact ru_none_data_mono fuel s
  | some i =>
    simp only [BatchedIterator.read_until]
    by_cases h : i ≥ (s.data.length : Int)
    · rw [if_pos h]; exact ru_idx_data_mono fuel i s
    · rw [if_neg h]; exact List.prefix_rfl

lemma read_until_complete (fuel : Nat) (idx : Option Int) (s : BatchedIterator)
    (hc : s.complete = true) : s.read_until fuel idx = .ok () s := by
  cases idx with
  | none => exact ru_none_complete fuel s hc
  | some i =>
    simp only [BatchedIterator.read_until]
    by_cases h : i ≥ (s.data.length : Int)
    · rw [if_pos h]; exact ru_idx_complete fuel i s hc
    · rw [if_neg h]

lemma ru_none_ok (fuel : Nat) : ∀ s s' : BatchedIterator,
    BatchedIterator.ru_loop_none fuel s = .ok () s' → s'.complete = true := by
  induction fuel with
  | zero =>
    intro s s' h
    simp only [BatchedIterator.ru_loop_none] at h
    by_cases hc : s.complete = true
    · rw [if_pos hc] at h; cases h; exact hc
    · rw [if_neg hc] at h; exact Res.noConfusion h
  | succ f ih =>
    intro s s' h
    simp only [BatchedIterator.ru_loop_none] at h
    by_cases hc : s.complete = true
    · rw [if_pos hc] at h; cases h; exact hc
    · rw [if_neg hc] at h
      rcases hrm : s.read_more with ⟨oe, s1⟩
      rw [hrm] at h
      cases oe with
      | some e => exact Res.noConfusion h
      | none => exact ih s1 s' h

lemma ru_idx_ok (fuel : Nat) (i : Int) : ∀ s s' : BatchedIterator,
    BatchedIterator.ru_loop_idx fuel i s = .ok () s' →
    s'.complete = true ∨ i < (s'.data.length : Int) := by
  induction fuel with
  | zero =>
    intro s s' h
    simp only [BatchedIterator.ru_loop_idx] at h
    by_cases hg : ¬s.complete = true ∧ i ≥ (s.data.length : Int)
    · rw [if_pos hg] at h; exact Res.noConfusion h
    · rw [if_neg hg] at h; cases h
      rcases not_and_or.mp hg with h1 | h2
      · exact Or.inl (by simpa using h1)
      · exact Or.inr (by omega)
  | succ f ih =>
    intro s s' h
    simp only [BatchedIterator.ru_loop_idx] at h
    by_cases hg : ¬s.complete = true ∧ i ≥ (s.data.length : Int)
    · rw [if_pos hg] at h
      rcases hrm : s.read_more with ⟨oe, s1⟩
      rw [hrm] at h
      cases oe with
      | some e => exact Res.noConfusion h
      | none => exact ih s1 s' h
    · rw [if_neg hg] at h; cases h
      rcases not_and_or.mp hg with h1 | h2
      · exact Or.inl (by simpa using h1)
      · exact Or.inr (by omega)

lemma read_until_some_ok (fuel : Nat) (i : Int) (s s' : BatchedIterator)
    (h : s.read_until fuel (some i) = .ok () s') :
    s'.complete = true ∨ i < (s'.data.length : Int) := by
  simp only [BatchedIterator.read_until] at h
  by_cases hge : i ≥ (s.data.length : Int)
  · rw [if_pos hge] at h; exact ru_idx_ok fuel i s s' h
  · rw [if_neg hge] at h; cases h
    exact Or.inr (by omega)

lemma read_until_none_ok (fuel : Nat) (s s' : BatchedIterator)
    (h : s.read_until fuel none = .ok () s') : s'.complete = true :=
  ru_none_ok fuel s s' h

/-- Claim C6: whenever `read_until` with a concrete index returns
normally, either the index is strictly below the accumulated length (the
accumulated length strictly exceeds the index) or the completion flag is
set; `read_until(None)` returns normally only with the completion flag
set. -/
theorem c6_read_until_post (fuel : Nat) (s : BatchedIterator) :
    (∀ (i : Int) (s' : BatchedIterator),
      s.read_until fuel (some i) = .ok () s' →
      s'.complete = true ∨ i < (s'.data.length : Int)) ∧
    (∀ s' : BatchedIterator,
      s.read_until fuel none = .ok () s' → s'.complete = true) :=
  ⟨fun i s' h => read_until_some_ok fuel i s s' h,
   fun s' h => read_until_none_ok fuel s s' h⟩

/-- Sample items used in the concrete instances below. -/
def jA : JVal := .parsed "a"

def jB : JVal := .parsed "b"

def jC : JVal := .parsed "c"

/-- An iterator that is not complete and holds one accumulated item. -/
def iterOpen : BatchedIterator := ⟨[], [jA], false⟩

/-- A complete iterator holding one accumulated item. -/
def iterDone : BatchedIterator := ⟨[], [jA], true⟩

/-- Witness for C6 at concrete inputs. -/
theorem c6_read_until_post_witness :
    (iterOpen.complete = true ∨ (0 : Int) < (iterOpen.data.length : Int)) ∧
    iterDone.complete = true :=
  ⟨(c6_read_until_post 3 iterOpen).1 0 iterOpen (by decide),
   (c6_read_until_post 3 iterDone).2 iterDone (by decide)⟩


/-- Claim C7: `__getitem__` with a non-negative index ensures the index
and returns the accumulated item at that index; when the ensure finishes
with the stream complete and the index at or past the accumulated length,
it raises IndexError; a negative index returns a value only after a full
drain (the final state is complete) and resolves the index against the
fully drained sequence. -/
theorem c7_getitem (fuel : Nat) (s : BatchedIterator) :
    (∀ (i : Int) (v : JVal) (s' : BatchedIterator), 0 ≤ i →
      s.getitem fuel i = .ok v s' → s'.data.get? i.toNat = some v) ∧
    (∀ (i : Int) (s' : BatchedIterator), 0 ≤ i →
      s.read_until fuel (some i) = .ok () s' → s'.complete = true →
      (s'.data.length : Int) ≤ i →
      s.getitem fuel i = .fail (.pyError "IndexError") s') ∧
    (∀ (i : Int) (v : JVal) (s' : BatchedIterator), i < 0 →
      s.getitem fuel i = .ok v s' →
      s'.complete = true ∧ pyListGet s'.data i = some v) := by
  refine ⟨?_, ?_, ?_⟩
  · intro i v s' hi h
    simp only [BatchedIterator.getitem] at h
    rw [if_neg (not_lt.mpr hi)] at h
    rcases hru : s.read_until fuel (some i) with ⟨⟨⟩, s1⟩ | ⟨e, s1⟩ | s1 <;>
        rw [hru] at h <;> dsimp only at h
    · rcases hpg : pyListGet s1.data i with - | w <;> rw [hpg] at h <;> dsimp only at h
      · exact Res.noConfusion h
      · obtain ⟨h1, h2⟩ := Res.ok.inj h
        subst h2
        rw [← h1]
        simp only [pyListGet, if_neg (not_lt.mpr hi)] at hpg
        exact hpg
    · exact Res.noConfusion h
    · exact Res.noConfusion h
  · intro i s' hi hru hc hlen
    simp only [BatchedIterator.getitem]
    rw [if_neg (not_lt.mpr hi), hru]
    have hpg : pyListGet s'.data i = none := by
      simp only [pyListGet, if_neg (not_lt.mpr hi)]
      exact List.get?_eq_none.mpr (by omega)
    dsimp only
    rw [hpg]
  · intro i v s' hneg h
    simp only [BatchedIterator.getitem] at h
    rw [if_pos hneg] at h
    rcases hru : s.read_until fuel none with ⟨⟨⟩, s1⟩ | ⟨e, s1⟩ | s1 <;>
        rw [hru] at h <;> dsimp only at h
    · rcases hpg : pyListGet s1.data i with - | w <;> rw [hpg] at h <;> dsimp only at h
      · exact Res.noConfusion h
      · obtain ⟨h1, h2⟩ := Res.ok.inj h
        subst h2
        rw [← h1]
        exact ⟨read_until_none_ok fuel s s1 hru, hpg⟩
    · exact Res.noConfusion h
    · exact Res.noConfusion h

/-- An iterator with one item accumulated and one single-item stream-final
page still pending on the connection. -/
def iterPending : BatchedIterator := ⟨[.page [jB] .SUCCESS_STREAM], [jA], false⟩

/-- The state of `iterPending` after a full drain. -/
def iterDrained : BatchedIterator := ⟨[], [jA, jB], true⟩

/-- An incomplete iterator holding two accumulated items. -/
def iterTwoOpen : BatchedIterator := ⟨[], [jA, jB], false⟩

/-- Witness for C7 at concrete inputs: index 0 on an open stream returns
the item at index 0; index 5 on a complete one-item stream raises; index
-2 on `iterPending` drains fully (even though the resolved position is
index 0) and then resolves. -/
theorem c7_getitem_witness :
    iterOpen.data.get? (0 : Int).toNat = some jA ∧
    iterDone.getitem 3 5 = .fail (.pyError "IndexError") iterDone ∧
    (iterDrained.complete = true ∧ pyListGet iterDrained.data (-2) = some jA) :=
  ⟨(c7_getitem 3 iterOpen).1 0 jA iterOpen (by decide) (by decide),
   (c7_getitem 3 iterDone).2.1 5 iterDone (by decide) (by decide) (by decide) (by decide),
   (c7_getitem 3 iterPending).2.2 (-2) jA iterDrained (by decide) (by decide)⟩

/-- Claim C8: equality against a plain list first runs
`read_until(len(other))` — so on normal return the accumulated length
strictly exceeds the list length or the stream is complete (second
conjunct), and nothing at all is fetched when that condition already
holds at entry (fourth conjunct: the state is returned unchanged) — and
the result is true exactly when the stream is then complete and the
accumulated data equals the list (first conjunct); in particular a stream
that is not complete after the drain compares unequal to every list
(third conjunct). -/
theorem c8_eq_list (fuel : Nat) (other : List JVal) (s : BatchedIterator) :
    (∀ (b : Bool) (s' : BatchedIterator),
      BatchedIterator.eq_list fuel other s = .ok b s' →
      (b = true ↔ s'.complete = true ∧ s'.data = other)) ∧
    (∀ (b : Bool) (s' : BatchedIterator),
      BatchedIterator.eq_list fuel other s = .ok b s' →
      s'.complete = true ∨ (other.length : Int) < (s'.data.length : Int)) ∧
    (∀ (b : Bool) (s' : BatchedIterator),
      BatchedIterator.eq_list fuel other s = .ok b s' →
      s'.complete = false → b = false) ∧
    (s.complete = true ∨ (other.length : Int) < (s.data.length : Int) →
      BatchedIterator.eq_list fuel other s
        = .ok (s.complete && decide (s.data = other)) s) := by
  refine ⟨?_, ?_, ?_, ?_⟩
  · intro b s' h
    simp only [BatchedIterator.eq_list] at h
    rcases hru : s.read_until fuel (some (other.length : Int)) with ⟨⟨⟩, s1⟩ | ⟨e, s1⟩ | s1 <;>
      rw [hru] at h <;> dsimp only at h
    · obtain ⟨h1, h2⟩ := Res.ok.inj h
      subst h2
      rw [← h1]
      simp [Bool.and_eq_true]
    · exact Res.noConfusion h
    · exact Res.noConfusion h
  · intro b s' h
    simp only [BatchedIterator.eq_list] at h
    rcases hru : s.read_until fuel (some (other.length : Int)) with ⟨⟨⟩, s1⟩ | ⟨e, s1⟩ | s1 <;>
      rw [hru] at h <;> dsimp only at h
    · obtain ⟨h1, h2⟩ := Res.ok.inj h
      subst h2
      exact read_until_some_ok fuel (other.length : Int) s s1 hru
    · exact Res.noConfusion h
    · exact Res.noConfusion h
  · intro b s' h hnc
    simp only [BatchedIterator.eq_list] at h
    rcases hru : s.read_until fuel (some (other.length : Int)) with ⟨⟨⟩, s1⟩ | ⟨e, s1⟩ | s1 <;>
      rw [hru] at h <;> dsimp only at h
    · obtain ⟨h1, h2⟩ := Res.ok.inj h
      subst h2
      rw [← h1, hnc]
      simp
    · exact Res.noConfusion h
    · exact Res.noConfusion h
  · intro hstop
    simp only [BatchedIterator.eq_list]
    have hru : s.read_until fuel (some (other.length : Int)) = .ok () s := by
      rcases hstop with hc | hlen
      · exact read_until_complete fuel (some (other.length : Int)) s hc
      · simp only [BatchedIterator.read_until]
        rw [if_neg (by omega)]
    rw [hru]

/-- Witness for C8 at concrete inputs: a completed one-item stream equals
the matching one-item list; the ensure postcondition holds; an incomplete
stream whose accumulated data already exceeds the list compares false;
and no fetch happens when the stream is already complete. -/
theorem c8_eq_list_witness :
    ((iterDone.complete && decide (iterDone.data = [jA])) = true ↔
      iterDone.complete = true ∧ iterDone.data = [jA]) ∧
    (iterDone.complete = true ∨ (([jA].length : Nat) : Int) < (iterDone.data.length : Int)) ∧
    ((iterTwoOpen.complete && decide (iterTwoOpen.data = [jA])) = false) ∧
    (BatchedIterator.eq_list 3 [jA] iterDone
      = .ok (iterDone.complete && decide (iterDone.data = [jA])) iterDone) :=
  ⟨(c8_eq_list 3 [jA] iterDone).1 (iterDone.complete && decide (iterDone.data = [jA]))
      iterDone (by decide),
   (c8_eq_list 3 [jA] iterDone).2.1 (iterDone.complete && decide (iterDone.data = [jA]))
      iterDone (by decide),
   (c8_eq_list 2 [jA] iterTwoOpen).2.2.1
      (iterTwoOpen.complete && decide (iterTwoOpen.data = [jA])) iterTwoOpen
      (by decide) (by decide),
   (c8_eq_list 3 [jA] iterDone).2.2.2 (Or.inl (by decide))⟩

lemma getitem_data_mono (fuel : Nat) (i : Int) (s : BatchedIterator) :
    s.data <+: (s.getitem fuel i).state.data := by
  simp only [BatchedIterator.getitem]
  by_cases hneg : i < 0
  · rw [if_pos hneg]
    have hp := read_until_data_mono fuel none s
    rcases hru : s.read_until fuel none with ⟨⟨⟩, s1⟩ | ⟨e, s1⟩ | s1 <;>
        rw [hru] at hp <;> simp only [Res.state] at hp <;> dsimp only
    · rcases hpg : pyListGet s1.data i with - | w <;> exact hp
    · exact hp
    · exact hp
  · rw [if_neg hneg]
    have hp := read_until_data_mono fuel (some i) s
    rcases hru : s.read_until fuel (some i) with ⟨⟨⟩, s1⟩ | ⟨e, s1⟩ | s1 <;>
        rw [hru] at hp <;> simp only [Res.state] at hp <;> dsimp only
    · rcases hpg : pyListGet s1.data i with - | w <;> exact hp
    · exact hp
    · exact hp

lemma getitem_state_complete (fuel : Nat) (i : Int) (s : BatchedIterator)
    (hc : s.complete = true) : (s.getitem fuel i).state = s := by
  simp only [BatchedIterator.getitem]
  by_cases hneg : i < 0
  · rw [if_pos hneg, read_until_complete fuel none s hc]
    dsimp only
    rcases hpg : pyListGet s.data i with - | w <;> rfl
  · rw [if_neg hneg, read_until_complete fuel (some i) s hc]
    dsimp only
    rcases hpg : pyListGet s.data i with - | w <;> rfl

lemma eq_list_data_mono (fuel : Nat) (other : List JVal) (s : BatchedIterator) :
    s.data <+: (BatchedIterator.eq_list fuel other s).state.data := by
  simp only [BatchedIterator.eq_list]
  have hp := read_until_data_mono fuel (some (other.length : Int)) s
  rcases hru : s.read_until fuel (some (other.length : Int)) with ⟨⟨⟩, s1⟩ | ⟨e, s1⟩ | s1 <;>
    rw [hru] at hp <;> simp only [Res.state] at hp <;> exact hp

lemma eq_list_state_complete (fuel : Nat) (other : List JVal) (s : BatchedIterator)
    (hc : s.complete = true) : (BatchedIterator.eq_list fuel other s).state = s := by
  simp only [BatchedIterator.eq_list]
  rw [read_until_complete fuel (some (other.length : Int)) s hc]
  rfl

lemma getitem_slice_eq (fuel : Nat) (sl : PySlice) (s : BatchedIterator) :
    s.getitem_slice fuel sl = .fail (.pyError "AttributeError") s := rfl

lemma iter_loop_data_mono (fuel : Nat) : ∀ (index : Nat) (s : BatchedIterator),
    s.data <+: (BatchedIterator.iter_loop fuel index s).2.state.data := by
  induction fuel with
  | zero =>
    intro index s
    simp only [BatchedIterator.iter_loop]
    by_cases hg : ¬s.complete = true ∧ index < s.data.length
    · rw [if_pos hg]; exact List.prefix_rfl
    · rw [if_neg hg]; exact List.prefix_rfl
  | succ f ih =>
    intro index s
    simp only [BatchedIterator.iter_loop]
    by_cases hg : ¬s.complete = true ∧ index < s.data.length
    · rw [if_pos hg]
      have hp := read_until_data_mono f (some (index : Int)) s
      rcases hru : s.read_until f (some (index : Int)) with ⟨⟨⟩, s1⟩ | ⟨e, s1⟩ | s1 <;>
          rw [hru] at hp <;> simp only [Res.state] at hp <;> dsimp only
      · rcases hget : s1.data.get? index with - | x
        · exact hp
        · exact hp.trans (ih (index + 1) s1)
      · exact hp
      · exact hp
    · rw [if_neg hg]; exact List.prefix_rfl

lemma iter_loop_complete (fuel : Nat) (index : Nat) (s : BatchedIterator)
    (hc : s.complete = true) :
    BatchedIterator.iter_loop fuel index s = ([], .ok () s) := by
  cases fuel <;> simp [BatchedIterator.iter_loop, hc]

/-- Claim C9: every `BatchedIterator` operation leaves the old accumulated
sequence a prefix of the new one and never clears the completion flag
(when the flag is set, each operation returns with the state unchanged, so
the flag is still set); `read_more` is a no-op when the flag is set; and a
`read_more` on which the underlying `_run` raises leaves both the
accumulated items and the flag exactly as they were. -/
theorem c9_stream_invariants (s : BatchedIterator) :
    (s.data <+: s.read_more.2.data) ∧
    (s.complete = true → s.read_more = (none, s)) ∧
    (∀ (e : RunError) (s2 : BatchedIterator), s.read_more = (some e, s2) →
      s2.data = s.data ∧ s2.complete = s.complete) ∧
    (∀ (fuel : Nat) (idx : Option Int),
      s.data <+: (s.read_until fuel idx).state.data ∧
      (s.complete = true → (s.read_until fuel idx).state.complete = true)) ∧
    (∀ (fuel : Nat) (i : Int),
      s.data <+: (s.getitem fuel i).state.data ∧
      (s.complete = true → (s.getitem fuel i).state.complete = true)) ∧
    (∀ (fuel : Nat) (other : List JVal),
      s.data <+: (BatchedIterator.eq_list fuel other s).state.data ∧
      (s.complete = true → (BatchedIterator.eq_list fuel other s).state.complete = true)) ∧
    (∀ (fuel : Nat) (sl : PySlice),
      s.data <+: (s.getitem_slice fuel sl).state.data ∧
      (s.complete = true → (s.getitem_slice fuel sl).state.complete = true)) ∧
    (∀ (fuel index : Nat),
      s.data <+: (BatchedIterator.iter_loop fuel index s).2.state.data ∧
      (s.complete = true → (BatchedIterator.iter_loop fuel index s).2.state.complete = true)) := by
  refine ⟨(read_more_mono s).1, read_more_noop s, read_more_err s, ?_, ?_, ?_, ?_, ?_⟩
  · intro fuel idx
    refine ⟨read_until_data_mono fuel idx s, fun hc => ?_⟩
    rw [read_until_complete fuel idx s hc]
    exact hc
  · intro fuel i
    refine ⟨getitem_data_mono fuel i s, fun hc => ?_⟩
    rw [getitem_state_complete fuel i s hc]
    exact hc
  · intro fuel other
    refine ⟨eq_list_data_mono fuel other s, fun hc => ?_⟩
    rw [eq_list_state_complete fuel other s hc]
    exact hc
  · intro fuel sl
    refine ⟨?_, fun hc => ?_⟩ <;> rw [getitem_slice_eq fuel sl s]
    · exact List.prefix_rfl
    · exact hc
  · intro fuel index
    refine ⟨iter_loop_data_mono fuel index s, fun hc => ?_⟩
    rw [iter_loop_complete fuel index s hc]
    exact hc

/-- An iterator whose next CONTINUE round trip raises. -/
def iterFailing : BatchedIterator := ⟨[.fail (.protocolError "boom")], [jA], false⟩

/-- Witness for C9 at concrete inputs: a complete stream's `read_more` is
a no-op; a failing fetch leaves data and flag untouched; a complete
stream's `read_until` leaves the flag set. -/
theorem c9_stream_invariants_witness :
    iterDone.read_more = (none, iterDone) ∧
    (iterOpen.data = iterFailing.data ∧ iterOpen.complete = iterFailing.complete) ∧
    (iterDone.read_until 3 none).state.complete = true :=
  ⟨(c9_stream_invariants iterDone).2.1 (by decide),
   (c9_stream_invariants iterFailing).2.2.1 (.protocolError "boom") iterOpen (by decide),
   ((c9_stream_invariants iterDone).2.2.2.1 3 none).2 (by decide)⟩

/-- Claim C10: indexing a `BatchedIterator` with a slice always raises
AttributeError before fetching or returning anything: the slice branch
evaluates `index.end`, and slice objects expose only `start`, `stop` and
`step`, so the attribute lookup fails and the state (in particular the
pending-page list) is returned untouched. -/
theorem c10_slice_always_attribute_error (fuel : Nat) (sl : PySlice) (s : BatchedIterator) :
    s.getitem_slice fuel sl = .fail (.pyError "AttributeError") s := rfl

/-- An iterator with two accumulated items and a final single-item page
still pending on the connection, not yet complete — the state the spec's
drain scenario is in after receiving page `[a, b]`. -/
def iterTwoPages : BatchedIterator := ⟨[.page [jC] .SUCCESS_STREAM], [jA, jB], false⟩

/-- Claim C1 (divergence of the code from the claim): the loop guard of
`__iter__` is `not self.complete and index < len(self.data)`, so
(1) iterating a stream whose completion flag is set yields no items at
all rather than all accumulated items, and (2) draining a stream that
holds `[a, b]` with page `[c]` still pending yields only `[a, b]`: the
guard stops at the cached boundary and the pending completing page is
never fetched, so the drain never yields `[a, b, c]`. The final state is
unchanged (conjunct 3), hence (conjunct 4) a second traversal re-fetches
nothing and yields the same truncated sequence. -/
theorem c1_iter_never_fetches :
    (BatchedIterator.iterate 10 iterDone).1 = [] ∧
    (BatchedIterator.iterate 10 iterTwoPages).1 = [jA, jB] ∧
    (BatchedIterator.iterate 10 iterTwoPages).2 = .ok () iterTwoPages ∧
    (BatchedIterator.iterate 10 ((BatchedIterator.iterate 10 iterTwoPages).2.state)).1
      = [jA, jB] := by
  refine ⟨by decide, by decide, by decide, by decide⟩

/-- Claim C4: response dispatch is a function of the status code alone
(every conjunct holds for all payloads, messages and backtraces):
SUCCESS_JSON returns the first payload item parsed as JSON;
SUCCESS_STREAM and the partial-success code return all payload items
parsed as JSON, wrapped by `run` into an iterator marked complete
resp. not complete; SUCCESS_EMPTY returns no value; RUNTIME_ERROR raises
an execution error and BAD_QUERY a malformed-query error, each carrying
message, backtrace and the original expression; BROKEN_CLIENT and any
unrecognized code raise a protocol error, so they never return a value. -/
theorem c4_status_dispatch (q : String) (payload : List String) (em : String)
    (bt : List Nat) (v : String) (rest : List String) (n : Nat) :
    Connection_run_public q ⟨.SUCCESS_JSON, v :: rest, em, bt⟩
      = .ok (.value (.jsonVal (JVal.parsed v))) ∧
    Connection_run_public q ⟨.SUCCESS_STREAM, payload, em, bt⟩
      = .ok (.iterator (.streamVals (payload.map JVal.parsed)) true) ∧
    Connection_run_public q ⟨.SUCCESS_PART, payload, em, bt⟩
      = .ok (.iterator (.streamVals (payload.map JVal.parsed)) false) ∧
    Connection_run_public q ⟨.SUCCESS_EMPTY, payload, em, bt⟩
      = .ok (.value .noneVal) ∧
    Connection_run_public q ⟨.RUNTIME_ERROR, payload, em, bt⟩
      = .error (.executionError em bt q) ∧
    Connection_run_public q ⟨.BAD_QUERY, payload, em, bt⟩
      = .error (.badQueryError em bt q) ∧
    Connection_run_public q ⟨.BROKEN_CLIENT, payload, em, bt⟩
      = .error (.protocolError "RethinkDB server rejected our protocol buffer as malformed. RethinkDB client is buggy?") ∧
    Connection_run_public q ⟨.UNKNOWN n, payload, em, bt⟩
      = .error (.protocolError "Got unexpected status code from server") := by
  refine ⟨rfl, rfl, rfl, rfl, rfl, rfl, rfl, rfl⟩

/-- Python `str.startswith` between character lists. -/
def chPrefix : List Char → List Char → Bool
  | [], _ => true
  | _ :: _, [] => false
  | a :: as, b :: bs => if a = b then chPrefix as bs else false

/-- Python substring containment `pat in s`. -/
def isSubstr (pat : List Char) : List Char → Bool
  | [] => pat.isEmpty
  | c :: cs => chPrefix pat (c :: cs) || isSubstr pat cs

/-- The begin sentinel marker `"\0begin\0"`. -/
def PRETTY_PRINT_BEGIN_TARGET : List Char := ['\x00', 'b', 'e', 'g', 'i', 'n', '\x00']

/-- The end sentinel marker `"\0end\0"`. -/
def PRETTY_PRINT_END_TARGET : List Char := ['\x00', 'e', 'n', 'd', '\x00']

/-- The `while True` loop of `consider_backtrace`, with
`prefix_match_length = k`; `cs` and `ts` are the suffixes of the complete
and target backtraces from position `k` on, and `cLen`, `tLen` their full
lengths (the loop tests `k == len(complete)` first, then
`k == len(target)`, then compares the entries at `k`). -/
def considerLoop (s : List Char) (cLen tLen : Nat) : List Nat → List Nat → Nat → List Char
  | [], _, _ => s
  | _ :: _, [], _ =>
    if cLen > tLen + 2 ∨ s.length > 60 then
      (if s.length > 8 then ['.', '.', '.'] else s)
    else s
  | c :: cs, t :: ts, k =>
    if c = t then considerLoop s cLen tLen cs ts (k + 1)
    else
      if cLen > k + 2 ∨ s.length > 60 then
        (if s.length > 8 then ['.', '.', '.'] else s)
      else s

/-- `BacktracePrettyPrinter.consider_backtrace`: the complete backtrace is
`current + steps`; on an exact match of the target the rendered text is
wrapped in the two sentinel markers (after asserting neither marker
already occurs in it); otherwise the prefix-matching loop decides between
returning the text unchanged and collapsing it. -/
def consider_backtrace (current_backtrace target_backtrace backtrace_steps : List Nat)
    (s : List Char) : Except String (List Char) :=
  if current_backtrace ++ backtrace_steps = target_backtrace then
    if isSubstr PRETTY_PRINT_BEGIN_TARGET s then .error "AssertionError"
    else if isSubstr PRETTY_PRINT_END_TARGET s then .error "AssertionError"
    else .ok (PRETTY_PRINT_BEGIN_TARGET ++ s ++ PRETTY_PRINT_END_TARGET)
  else
    .ok (considerLoop s (current_backtrace ++ backtrace_steps).length target_backtrace.length
      (current_backtrace ++ backtrace_steps) target_backtrace 0)

/-- Length of the longest common prefix of two backtraces. -/
def commonPrefixLen : List Nat → List Nat → Nat
  | a :: as, b :: bs => if a = b then commonPrefixLen as bs + 1 else 0
  | _, _ => 0

/-- The collapsed rendering: `"..."` for text longer than 8 characters,
the text itself otherwise. -/
def collapsed (s : List Char) : List Char :=
  if s.length > 8 then ['.', '.', '.'] else s

lemma prefix_antisymm' {a b : List Nat} (h1 : a <+: b) (h2 : b <+: a) : a = b :=
  h1.eq_of_length (Nat.le_antisymm h1.length_le h2.length_le)

lemma considerLoop_on_path (s : List Char) (cLen tLen : Nat) :
    ∀ (cs ts : List Nat) (k : Nat), cs <+: ts →
    considerLoop s cLen tLen cs ts k = s := by
  intro cs
  induction cs with
  | nil => intro ts k _; rfl
  | cons c cs ih =>
    intro ts k hp
    cases ts with
    | nil => exact absurd (List.eq_nil_of_prefix_nil hp) (by simp)
    | cons t ts' =>
      obtain ⟨hct, hp'⟩ := List.cons_prefix_cons.mp hp
      subst hct
      simp only [considerLoop, if_pos rfl]
      exact ih ts' (k + 1) hp'

lemma considerLoop_descendant (s : List Char) (cLen tLen : Nat) :
    ∀ (cs ts : List Nat) (k : Nat), ts <+: cs → ¬(cs <+: ts) →
    considerLoop s cLen tLen cs ts k =
      if cLen > tLen + 2 ∨ s.length > 60 then collapsed s else s := by
  intro cs
  induction cs with
  | nil =>
    intro ts k hq hp
    exact absurd List.nil_prefix hp
  | cons c cs ih =>
    intro ts k hq hp
    cases ts with
    | nil => simp [considerLoop, collapsed]
    | cons t ts' =>
      obtain ⟨hct, hq'⟩ := List.cons_prefix_cons.mp hq
      subst hct
      have hp' : ¬(cs <+: ts') := fun h => hp (List.cons_prefix_cons.mpr ⟨rfl, h⟩)
      simp only [considerLoop, if_pos rfl]
      exact ih ts' (k + 1) hq' hp'

lemma considerLoop_divergent (s : List Char) (cLen tLen : Nat) :
    ∀ (cs ts : List Nat) (k : Nat), ¬(cs <+: ts) → ¬(ts <+: cs) →
    considerLoop s cLen tLen cs ts k =
      if cLen > (k + commonPrefixLen cs ts) + 2 ∨ s.length > 60 then collapsed s else s := by
  intro cs
  induction cs with
  | nil =>
    intro ts k hp hq
    exact absurd List.nil_prefix hp
  | cons c cs ih =>
    intro ts k hp hq
    cases ts with
    | nil => exact absurd List.nil_prefix hq
    | cons t ts' =>
      by_cases hct : c = t
      · subst hct
        have hp' : ¬(cs <+: ts') := fun h => hp (List.cons_prefix_cons.mpr ⟨rfl, h⟩)
        have hq' : ¬(ts' <+: cs) := fun h => hq (List.cons_prefix_cons.mpr ⟨rfl, h⟩)
        have h3 : commonPrefixLen (c :: cs) (c :: ts') = commonPrefixLen cs ts' + 1 := by
          simp [commonPrefixLen]
        simp only [considerLoop, if_pos rfl]
        rw [ih ts' (k + 1) hp' hq', h3]
        have harith : k + 1 + commonPrefixLen cs ts' = k + (commonPrefixLen cs ts' + 1) := by
          omega
        rw [harith]
        rfl
      · have h3 : commonPrefixLen (c :: cs) (t :: ts') = 0 := by
          simp [commonPrefixLen, hct]
        simp only [considerLoop, if_neg hct]
        rw [h3, Nat.add_zero]
        rfl

/-- Claim C2: case analysis of `consider_backtrace`. Writing `combined`
for `current ++ steps`: (1) on an exact match of the target the text is
wrapped in the sentinel markers, (2) unless a marker already occurs in
the text, which is a fatal assertion failure; (3) when `combined` is a
strict prefix of the target the text is returned unchanged; (4) when the
target is a strict prefix of `combined` (a descendant of the target),
the text collapses exactly when the node is more than 2 levels past the
target or the text exceeds 60 characters, and is unchanged otherwise;
(5) on a divergent branch the text collapses exactly when the node is
more than 2 levels past the matched common prefix or the text exceeds 60
characters, and is unchanged otherwise. -/
theorem c2_consider_backtrace (current_backtrace target_backtrace backtrace_steps : List Nat)
    (s : List Char) :
    (current_backtrace ++ backtrace_steps = target_backtrace →
      isSubstr PRETTY_PRINT_BEGIN_TARGET s = false →
      isSubstr PRETTY_PRINT_END_TARGET s = false →
      consider_backtrace current_backtrace target_backtrace backtrace_steps s
        = .ok (PRETTY_PRINT_BEGIN_TARGET ++ s ++ PRETTY_PRINT_END_TARGET)) ∧
    (current_backtrace ++ backtrace_steps = target_backtrace →
      (isSubstr PRETTY_PRINT_BEGIN_TARGET s = true ∨
        isSubstr PRETTY_PRINT_END_TARGET s = true) →
      consider_backtrace current_backtrace target_backtrace backtrace_steps s
        = .error "AssertionError") ∧
    (current_backtrace ++ backtrace_steps ≠ target_backtrace →
      current_backtrace ++ backtrace_steps <+: target_backtrace →
      consider_backtrace current_backtrace target_backtrace backtrace_steps s = .ok s) ∧
    (current_backtrace ++ backtrace_steps ≠ target_backtrace →
      target_backtrace <+: current_backtrace ++ backtrace_steps →
      ((((current_backtrace ++ backtrace_steps).length > target_backtrace.length + 2 ∨
          s.length > 60) →
        consider_backtrace current_backtrace target_backtrace backtrace_steps s
          = .ok (collapsed s)) ∧
       (¬((current_backtrace ++ backtrace_steps).length > target_backtrace.length + 2 ∨
          s.length > 60) →
        consider_backtrace current_backtrace target_backtrace backtrace_steps s = .ok s))) ∧
    (¬(current_backtrace ++ backtrace_steps <+: target_backtrace) →
      ¬(target_backtrace <+: current_backtrace ++ backtrace_steps) →
      ((((current_backtrace ++ backtrace_steps).length >
          commonPrefixLen (current_backtrace ++ backtrace_steps) target_backtrace + 2 ∨
          s.length > 60) →
        consider_backtrace current_backtrace target_backtrace backtrace_steps s
          = .ok (collapsed s)) ∧
       (¬((current_backtrace ++ backtrace_steps).length >
          commonPrefixLen (current_backtrace ++ backtrace_steps) target_backtrace + 2 ∨
          s.length > 60) →
        consider_backtrace current_backtrace target_backtrace backtrace_steps s = .ok s))) := by
  refine ⟨?_, ?_, ?_, ?_, ?_⟩
  · intro heq hb he
    simp only [consider_backtrace, if_pos heq, hb, he]
    rfl
  · intro heq hm
    rcases hm with hb | he
    · simp only [consider_backtrace, if_pos heq, hb]
      rfl
    · simp only [consider_backtrace, if_pos heq, he]
      by_cases hb : isSubstr PRETTY_PRINT_BEGIN_TARGET s <;> simp [hb]
  · intro hne hp
    simp only [consider_backtrace, if_neg hne]
    rw [considerLoop_on_path _ _ _ _ _ _ hp]
  · intro hne hp
    have hnp : ¬(current_backtrace ++ backtrace_steps <+: target_backtrace) := by
      intro h
      exact hne (prefix_antisymm' h hp)
    constructor
    · intro hcond
      simp only [consider_backtrace, if_neg hne]
      rw [considerLoop_descendant _ _ _ _ _ _ hp hnp, if_pos hcond]
    · intro hcond
      simp only [consider_backtrace, if_neg hne]
      rw [considerLoop_descendant _ _ _ _ _ _ hp hnp, if_neg hcond]
  · intro hnp hnq
    have hne : current_backtrace ++ backtrace_steps ≠ target_backtrace := by
      intro h
      exact hnp (h ▸ List.prefix_rfl)
    constructor
    · intro hcond
      simp only [consider_backtrace, if_neg hne]
      rw [considerLoop_divergent _ _ _ _ _ _ hnp hnq, Nat.zero_add, if_pos hcond]
    · intro hcond
      simp only [consider_backtrace, if_neg hne]
      rw [considerLoop_divergent _ _ _ _ _ _ hnp hnq, Nat.zero_add, if_neg hcond]

/-- Witness for C2 at concrete inputs: an exact target match wraps the
text; a marker already in the text asserts; an ancestor on the path
renders unchanged; a node 3 levels below the target collapses its 10
character rendering to `"..."`; a node 1 level below the target renders
unchanged; a divergent node 3 levels off the matched prefix collapses;
a shallow divergent node renders unchanged. -/
theorem c2_consider_backtrace_witness :
    consider_backtrace [1] [1, 2] [2] ['x']
      = .ok (PRETTY_PRINT_BEGIN_TARGET ++ ['x'] ++ PRETTY_PRINT_END_TARGET) ∧
    consider_backtrace [1] [1, 2] [2] PRETTY_PRINT_BEGIN_TARGET = .error "AssertionError" ∧
    consider_backtrace [1] [1, 2] [] ['x'] = .ok ['x'] ∧
    consider_backtrace [1] [1] [2, 3, 4] ['a', 'b', 'c', 'd', 'e', 'f', 'g', 'h', 'i', 'j']
      = .ok (collapsed ['a', 'b', 'c', 'd', 'e', 'f', 'g', 'h', 'i', 'j']) ∧
    consider_backtrace [1] [1] [2] ['x'] = .ok ['x'] ∧
    consider_backtrace [9] [1] [2, 3, 4] ['a', 'b', 'c', 'd', 'e', 'f', 'g', 'h', 'i', 'j']
      = .ok (collapsed ['a', 'b', 'c', 'd', 'e', 'f', 'g', 'h', 'i', 'j']) ∧
    consider_backtrace [9] [1] [] ['x'] = .ok ['x'] :=
  ⟨(c2_consider_backtrace [1] [1, 2] [2] ['x']).1 (by decide) (by decide) (by decide),
   (c2_consider_backtrace [1] [1, 2] [2] PRETTY_PRINT_BEGIN_TARGET).2.1 (by decide)
     (Or.inl (by decide)),
   (c2_consider_backtrace [1] [1, 2] [] ['x']).2.2.1 (by decide) (by decide),
   ((c2_consider_backtrace [1] [1] [2, 3, 4]
       ['a', 'b', 'c', 'd', 'e', 'f', 'g', 'h', 'i', 'j']).2.2.2.1 (by decide) (by decide)).1
     (Or.inl (by decide)),
   ((c2_consider_backtrace [1] [1] [2] ['x']).2.2.2.1 (by decide) (by decide)).2 (by decide),
   ((c2_consider_backtrace [9] [1] [2, 3, 4]
       ['a', 'b', 'c', 'd', 'e', 'f', 'g', 'h', 'i', 'j']).2.2.2.2 (by decide) (by decide)).1
     (Or.inl (by decide)),
   ((c2_consider_backtrace [9] [1] [] ['x']).2.2.2.2 (by decide) (by decide)).2 (by decide)⟩

/-- Python non-overlapping substring count `s.count(pat)`, as a left to
right scan: after a match the remaining `len(pat) - 1` matched characters
are skipped via the counter `k`. (Python's special case of an empty
pattern is irrelevant: both markers are nonempty.) -/
def countSkip (pat : List Char) : List Char → Nat → Nat
  | [], _ => 0
  | c :: cs, 0 =>
    match chPrefix pat (c :: cs) with
    | true => 1 + countSkip pat cs (pat.length - 1)
    | false => countSkip pat cs 0
  | _ :: cs, k + 1 => countSkip pat cs k

/-- Python `s.count(pat)` for a nonempty pattern. -/
def countOcc (pat s : List Char) : Nat := countSkip pat s 0

/-- The scan underlying Python `s.split(pat)`: `acc` accumulates the
current piece in reverse; after a match the remaining matched characters
are skipped via the counter `k`. -/
def splitSkip (pat : List Char) : List Char → Nat → List Char → List (List Char)
  | [], _, acc => [acc.reverse]
  | c :: cs, 0, acc =>
    match chPrefix pat (c :: cs) with
    | true => acc.reverse :: splitSkip pat cs (pat.length - 1) []
    | false => splitSkip pat cs 0 (c :: acc)
  | _ :: cs, k + 1, acc => splitSkip pat cs k acc

/-- Python `s.split(pat)` for a nonempty pattern. -/
def pySplit (s pat : List Char) : List (List Char) := splitSkip pat s 0 []

/-- Python `line.rstrip(" ")`. -/
def rstripSpaces (s : List Char) : List Char :=
  (s.reverse.dropWhile (fun c => c == ' ')).reverse

/-- Python `line.lstrip(" ")`. -/
def lstripSpaces (s : List Char) : List Char :=
  s.dropWhile (fun c => c == ' ')

/-- `" " * n`. -/
def spaces (n : Nat) : List Char := List.replicate n ' '

/-- `"^" * n`. -/
def carets (n : Nat) : List Char := List.replicate n '^'

/-- `"\n".join(lines)`. -/
def joinNL : List (List Char) → List Char
  | [] => []
  | [l] => l
  | l :: ls => l ++ '\n' :: joinNL ls

lemma chPrefix_self_append (p t : List Char) : chPrefix p (p ++ t) = true := by
  induction p with
  | nil => rfl
  | cons a as ih => simp [chPrefix, ih]

lemma chPrefix_head_ne {h0 : Char} (pt : List Char) {c : Char} (rest : List Char)
    (h : c ≠ h0) : chPrefix (h0 :: pt) (c :: rest) = false := by
  simp only [chPrefix]
  rw [if_neg (fun he => h he.symm)]

lemma chPrefix_mem_clean (pat : List Char) {c0 : Char} :
    ∀ s : List Char, c0 ∈ pat → c0 ∉ s → chPrefix pat s = false := by
  induction pat with
  | nil => intro s hmem _; cases hmem
  | cons a as ih =>
    intro s hmem hs
    cases s with
    | nil => rfl
    | cons b bs =>
      simp only [chPrefix]
      by_cases hab : a = b
      · rw [if_pos hab]
        rcases List.mem_cons.mp hmem with h1 | h2
        · exfalso
          apply hs
          rw [h1, hab]
          exact List.mem_cons_self _ _
        · exact ih bs h2 (fun hm => hs (List.mem_cons_of_mem _ hm))
      · rw [if_neg hab]

lemma countSkip_skip (pat : List Char) : ∀ (x r : List Char) (k : Nat), x.length = k →
    countSkip pat (x ++ r) k = countSkip pat r 0 := by
  intro x
  induction x with
  | nil =>
    intro r k hk
    subst hk
    rfl
  | cons c cs ih =>
    intro r k hk
    subst hk
    simp only [List.cons_append, List.length_cons, countSkip]
    exact ih r cs.length rfl

lemma splitSkip_skip (pat : List Char) : ∀ (x r acc : List Char) (k : Nat), x.length = k →
    splitSkip pat (x ++ r) k acc = splitSkip pat r 0 acc := by
  intro x
  induction x with
  | nil =>
    intro r acc k hk
    subst hk
    rfl
  | cons c cs ih =>
    intro r acc k hk
    subst hk
    simp only [List.cons_append, List.length_cons, splitSkip]
    exact ih r acc cs.length rfl

lemma countSkip_walk {h0 : Char} (pt : List Char) : ∀ (a r : List Char), h0 ∉ a →
    countSkip (h0 :: pt) (a ++ r) 0 = countSkip (h0 :: pt) r 0 := by
  intro a
  induction a with
  | nil => intro r _; rfl
  | cons c cs ih =>
    intro r ha
    have hc : c ≠ h0 := by
      intro h
      apply ha
      rw [← h]
      exact List.mem_cons_self _ _
    have hpre := chPrefix_head_ne pt (cs ++ r) hc
    simp only [List.cons_append, List.append_eq, countSkip, hpre]
    exact ih r (fun hm => ha (List.mem_cons_of_mem _ hm))

lemma countSkip_clean {h0 : Char} (pt : List Char) : ∀ s : List Char, h0 ∉ s →
    countSkip (h0 :: pt) s 0 = 0 := by
  intro s hs
  have := countSkip_walk pt s [] hs
  rw [List.append_nil] at this
  rw [this]
  rfl

lemma splitSkip_walk {h0 : Char} (pt : List Char) : ∀ (a r acc : List Char), h0 ∉ a →
    splitSkip (h0 :: pt) (a ++ r) 0 acc = splitSkip (h0 :: pt) r 0 (a.reverse ++ acc) := by
  intro a
  induction a with
  | nil => intro r acc _; rfl
  | cons c cs ih =>
    intro r acc ha
    have hc : c ≠ h0 := by
      intro h
      apply ha
      rw [← h]
      exact List.mem_cons_self _ _
    have hpre := chPrefix_head_ne pt (cs ++ r) hc
    simp only [List.cons_append, List.append_eq, splitSkip, hpre]
    rw [ih r (c :: acc) (fun hm => ha (List.mem_cons_of_mem _ hm))]
    simp

lemma splitSkip_clean {h0 : Char} (pt : List Char) : ∀ (s acc : List Char), h0 ∉ s →
    splitSkip (h0 :: pt) s 0 acc = [acc.reverse ++ s] := by
  intro s acc hs
  have := splitSkip_walk pt s [] acc hs
  rw [List.append_nil] at this
  rw [this]
  simp [splitSkip]

lemma isSubstr_walk {h0 : Char} (pt : List Char) : ∀ (a r : List Char), h0 ∉ a →
    isSubstr (h0 :: pt) (a ++ r) = isSubstr (h0 :: pt) r := by
  intro a
  induction a with
  | nil => intro r _; rfl
  | cons c cs ih =>
    intro r ha
    have hc : c ≠ h0 := by
      intro h
      apply ha
      rw [← h]
      exact List.mem_cons_self _ _
    have hpre := chPrefix_head_ne pt (cs ++ r) hc
    simp only [List.cons_append, List.append_eq, isSubstr, hpre, Bool.false_or]
    exact ih r (fun hm => ha (List.mem_cons_of_mem _ hm))

lemma isSubstr_clean {h0 : Char} (pt : List Char) : ∀ s : List Char, h0 ∉ s →
    isSubstr (h0 :: pt) s = false := by
  intro s hs
  have := isSubstr_walk pt s [] hs
  rw [List.append_nil] at this
  rw [this]
  rfl

lemma isSubstr_at_self (p : Char) (ps b : List Char) :
    isSubstr (p :: ps) ((p :: ps) ++ b) = true := by
  simp only [List.cons_append, List.append_eq, isSubstr]
  have h := chPrefix_self_append (p :: ps) b
  rw [List.cons_append] at h
  rw [h, Bool.true_or]

lemma isSubstr_append_left (p : Char) (ps : List Char) : ∀ (a b : List Char),
    isSubstr (p :: ps) (a ++ ((p :: ps) ++ b)) = true := by
  intro a
  induction a with
  | nil =>
    intro b
    rw [List.nil_append]
    exact isSubstr_at_self p ps b
  | cons c cs ih =>
    intro b
    simp only [List.cons_append, List.append_eq, isSubstr]
    have h2 : isSubstr (p :: ps) (cs ++ (p :: (ps ++ b))) = true := ih b
    rw [h2, Bool.or_true]

lemma countSkip_at_self (p : Char) (ps r : List Char) :
    countSkip (p :: ps) ((p :: ps) ++ r) 0 = 1 + countSkip (p :: ps) r 0 := by
  have h := chPrefix_self_append (p :: ps) r
  rw [List.cons_append] at h
  rw [List.cons_append]
  simp only [countSkip, h]
  congr 1
  exact countSkip_skip (p :: ps) ps r ((p :: ps).length - 1) (by simp)

lemma splitSkip_at_self (p : Char) (ps r acc : List Char) :
    splitSkip (p :: ps) ((p :: ps) ++ r) 0 acc = acc.reverse :: splitSkip (p :: ps) r 0 [] := by
  have h := chPrefix_self_append (p :: ps) r
  rw [List.cons_append] at h
  rw [List.cons_append]
  simp only [splitSkip, h]
  congr 1
  exact splitSkip_skip (p :: ps) ps r [] ((p :: ps).length - 1) (by simp)

lemma countSkip_E_across_B (r : List Char) :
    countSkip PRETTY_PRINT_END_TARGET (PRETTY_PRINT_BEGIN_TARGET ++ r) 0
      = countSkip PRETTY_PRINT_END_TARGET ('\x00' :: r) 0 := by
  show countSkip PRETTY_PRINT_END_TARGET
      ('\x00' :: 'b' :: 'e' :: 'g' :: 'i' :: 'n' :: '\x00' :: r) 0
    = countSkip PRETTY_PRINT_END_TARGET ('\x00' :: r) 0
  simp [PRETTY_PRINT_END_TARGET, countSkip, chPrefix]

lemma countSkip_B_across_E (r : List Char) :
    countSkip PRETTY_PRINT_BEGIN_TARGET (PRETTY_PRINT_END_TARGET ++ r) 0
      = countSkip PRETTY_PRINT_BEGIN_TARGET ('\x00' :: r) 0 := by
  show countSkip PRETTY_PRINT_BEGIN_TARGET ('\x00' :: 'e' :: 'n' :: 'd' :: '\x00' :: r) 0
    = countSkip PRETTY_PRINT_BEGIN_TARGET ('\x00' :: r) 0
  simp [PRETTY_PRINT_BEGIN_TARGET, countSkip, chPrefix]

lemma isSubstr_E_across_B (r : List Char) :
    isSubstr PRETTY_PRINT_END_TARGET (PRETTY_PRINT_BEGIN_TARGET ++ r)
      = (chPrefix ['e', 'n', 'd', '\x00'] r || isSubstr PRETTY_PRINT_END_TARGET r) := by
  show isSubstr PRETTY_PRINT_END_TARGET ('\x00' :: 'b' :: 'e' :: 'g' :: 'i' :: 'n' :: '\x00' :: r)
    = (chPrefix ['e', 'n', 'd', '\x00'] r || isSubstr PRETTY_PRINT_END_TARGET r)
  simp [PRETTY_PRINT_END_TARGET, isSubstr, chPrefix]

lemma end_tail_prefix_elim (t a : List Char) (ht : '\x00' ∉ t)
    (h : chPrefix ['e', 'n', 'd', '\x00'] (t ++ ('\x00' :: 'e' :: 'n' :: 'd' :: '\x00' :: a)) = true) :
    t = ['e', 'n', 'd'] := by
  rcases t with - | ⟨x, - | ⟨y, - | ⟨z, - | ⟨w, ts⟩⟩⟩⟩
  · simp [chPrefix] at h
  · by_cases hx : 'e' = x <;> simp [chPrefix, hx] at h
  · by_cases hx : 'e' = x
    · by_cases hy : 'n' = y <;> simp [chPrefix, hx, hy] at h
    · simp [chPrefix, hx] at h
  · by_cases hx : 'e' = x
    · by_cases hy : 'n' = y
      · by_cases hz : 'd' = z
        · rw [← hx, ← hy, ← hz]
        · simp [chPrefix, hx, hy, hz] at h
      · simp [chPrefix, hx, hy] at h
    · simp [chPrefix, hx] at h
  · by_cases hx : 'e' = x
    · by_cases hy : 'n' = y
      · by_cases hz : 'd' = z
        · have hw : w ≠ '\x00' := by
            intro hww
            apply ht
            rw [← hww]
            simp
          have hw' : ¬('\x00' = w) := fun he => hw he.symm
          simp [chPrefix, hx, hy, hz, hw'] at h
        · simp [chPrefix, hx, hy, hz] at h
      · simp [chPrefix, hx, hy] at h
    · simp [chPrefix, hx] at h

lemma end_tail_prefix_nl (t r : List Char) (h0 : '\x00' ∉ t) :
    chPrefix ['e', 'n', 'd', '\x00'] (t ++ '\n' :: r) = false := by
  rcases t with - | ⟨x, - | ⟨y, - | ⟨z, - | ⟨w, ts⟩⟩⟩⟩
  · simp [chPrefix]
  · by_cases hx : 'e' = x <;> simp [chPrefix, hx]
  · by_cases hx : 'e' = x
    · by_cases hy : 'n' = y <;> simp [chPrefix, hx, hy]
    · simp [chPrefix, hx]
  · by_cases hx : 'e' = x
    · by_cases hy : 'n' = y
      · by_cases hz : 'd' = z <;> simp [chPrefix, hx, hy, hz]
      · simp [chPrefix, hx, hy]
    · simp [chPrefix, hx]
  · by_cases hx : 'e' = x
    · by_cases hy : 'n' = y
      · by_cases hz : 'd' = z
        · have hw : ¬('\x00' = w) := by
            intro hww
            apply h0
            rw [hww]
            simp
          simp [chPrefix, hx, hy, hz, hw]
        · simp [chPrefix, hx, hy, hz]
      · simp [chPrefix, hx, hy]
    · simp [chPrefix, hx]

/-- The two errors `QueryError.location` can raise: `internal` is the
explicit internal-consistency `ValueError` raised when the rendered text
does not contain the two markers exactly once each; `unpack` is the
incidental `ValueError` a two-target tuple unpacking of `str.split`
raises when the split does not produce exactly two pieces. -/
inductive LocErr where
  | internal
  | unpack
deriving DecidableEq, Repr

/-- The line loop of `QueryError.location`: each line is right-stripped;
outside the target region a line containing both markers is rewritten to
text plus a caret line, a line containing only the begin marker opens the
region, and other lines pass through; inside the region lines are
left-stripped to find their indentation, a line with the end marker
closes the region with carets up to the marker, and every other line gets
a caret row under its whole stripped content. -/
def formatLines : List (List Char) → Bool → Except LocErr (List (List Char))
  | [], _ => .ok []
  | line0 :: rest, in_target =>
    if in_target = false then
      if isSubstr PRETTY_PRINT_BEGIN_TARGET (rstripSpaces line0) then
        if isSubstr PRETTY_PRINT_END_TARGET (rstripSpaces line0) then
          match pySplit (rstripSpaces line0) PRETTY_PRINT_BEGIN_TARGET with
          | [before, rest1] =>
            match pySplit rest1 PRETTY_PRINT_END_TARGET with
            | [target, after] =>
              match formatLines rest false with
              | .ok ls => .ok ((before ++ target ++ after) ::
                  (spaces before.length ++ carets target.length) :: ls)
              | .error e => .error e
            | _ => .error .unpack
          | _ => .error .unpack
        else
          match pySplit (rstripSpaces line0) PRETTY_PRINT_BEGIN_TARGET with
          | [before, after] =>
            match formatLines rest true with
            | .ok ls => .ok ((before ++ after) ::
                (spaces before.length ++ carets after.length) :: ls)
            | .error e => .error e
          | _ => .error .unpack
      else
        match formatLines rest false with
        | .ok ls => .ok (rstripSpaces line0 :: ls)
        | .error e => .error e
    else
      if isSubstr PRETTY_PRINT_END_TARGET (lstripSpaces (rstripSpaces line0)) then
        match pySplit (lstripSpaces (rstripSpaces line0)) PRETTY_PRINT_END_TARGET with
        | [before, after] =>
          match formatLines rest false with
          | .ok ls => .ok
              ((spaces ((rstripSpaces line0).length - (lstripSpaces (rstripSpaces line0)).length)
                  ++ before ++ after) ::
                (spaces ((rstripSpaces line0).length - (lstripSpaces (rstripSpaces line0)).length)
                  ++ carets before.length) :: ls)
          | .error e => .error e
        | _ => .error .unpack
      else
        match formatLines rest true with
        | .ok ls => .ok
            ((spaces ((rstripSpaces line0).length - (lstripSpaces (rstripSpaces line0)).length)
                ++ lstripSpaces (rstripSpaces line0)) ::
              (spaces ((rstripSpaces line0).length - (lstripSpaces (rstripSpaces line0)).length)
                ++ carets (lstripSpaces (rstripSpaces line0)).length) :: ls)
        | .error e => .error e

/-- `QueryError.location`, from the point where the backtrace printer has
produced the rendered query text `query_str` (the rendering itself walks
the expression tree of the separate `query` module): the marker counts
are checked — anything but exactly one begin and one end marker is the
fatal internal error — and the line loop converts the bracketed region to
caret underlining; the formatted lines are joined with newlines. -/
def location (query_str : List Char) : Except LocErr (List Char) :=
  if countOcc PRETTY_PRINT_BEGIN_TARGET query_str
        = countOcc PRETTY_PRINT_END_TARGET query_str ∧
      countOcc PRETTY_PRINT_END_TARGET query_str = 1 then
    match formatLines (pySplit query_str ['\n']) false with
    | .ok ls => .ok (joinNL ls)
    | .error e => .error e
  else .error .internal

lemma formatLines_ok_or_unpack : ∀ (ls : List (List Char)) (b : Bool),
    (∃ r, formatLines ls b = .ok r) ∨ formatLines ls b = .error .unpack := by
  intro ls
  induction ls with
  | nil => intro b; exact Or.inl ⟨[], rfl⟩
  | cons l rest ih =>
    intro b
    rcases ih false with ⟨r0, hr0⟩ | hr0 <;> rcases ih true with ⟨r1, hr1⟩ | hr1 <;>
        simp only [formatLines, hr0, hr1] <;> repeat' split
    all_goals first
      | exact Or.inl ⟨_, rfl⟩
      | exact Or.inr rfl

lemma formatLines_ne_internal (ls : List (List Char)) (b : Bool) :
    formatLines ls b ≠ .error .internal := by
  rcases formatLines_ok_or_unpack ls b with ⟨r, hr⟩ | hr <;> rw [hr] <;> simp

lemma countSkip_walk_B (a r : List Char) (ha : '\x00' ∉ a) :
    countSkip PRETTY_PRINT_BEGIN_TARGET (a ++ r) 0
      = countSkip PRETTY_PRINT_BEGIN_TARGET r 0 :=
  countSkip_walk _ a r ha

lemma countSkip_walk_E (a r : List Char) (ha : '\x00' ∉ a) :
    countSkip PRETTY_PRINT_END_TARGET (a ++ r) 0
      = countSkip PRETTY_PRINT_END_TARGET r 0 :=
  countSkip_walk _ a r ha

lemma countSkip_clean_B (s : List Char) (hs : '\x00' ∉ s) :
    countSkip PRETTY_PRINT_BEGIN_TARGET s 0 = 0 :=
  countSkip_clean _ s hs

lemma countSkip_clean_E (s : List Char) (hs : '\x00' ∉ s) :
    countSkip PRETTY_PRINT_END_TARGET s 0 = 0 :=
  countSkip_clean _ s hs

lemma splitSkip_walk_B (a r acc : List Char) (ha : '\x00' ∉ a) :
    splitSkip PRETTY_PRINT_BEGIN_TARGET (a ++ r) 0 acc
      = splitSkip PRETTY_PRINT_BEGIN_TARGET r 0 (a.reverse ++ acc) :=
  splitSkip_walk _ a r acc ha

lemma splitSkip_walk_E (a r acc : List Char) (ha : '\x00' ∉ a) :
    splitSkip PRETTY_PRINT_END_TARGET (a ++ r) 0 acc
      = splitSkip PRETTY_PRINT_END_TARGET r 0 (a.reverse ++ acc) :=
  splitSkip_walk _ a r acc ha

lemma splitSkip_clean_B (s acc : List Char) (hs : '\x00' ∉ s) :
    splitSkip PRETTY_PRINT_BEGIN_TARGET s 0 acc = [acc.reverse ++ s] :=
  splitSkip_clean _ s acc hs

lemma splitSkip_clean_E (s acc : List Char) (hs : '\x00' ∉ s) :
    splitSkip PRETTY_PRINT_END_TARGET s 0 acc = [acc.reverse ++ s] :=
  splitSkip_clean _ s acc hs

lemma isSubstr_walk_E (a r : List Char) (ha : '\x00' ∉ a) :
    isSubstr PRETTY_PRINT_END_TARGET (a ++ r) = isSubstr PRETTY_PRINT_END_TARGET r :=
  isSubstr_walk _ a r ha

lemma isSubstr_clean_E (s : List Char) (hs : '\x00' ∉ s) :
    isSubstr PRETTY_PRINT_END_TARGET s = false :=
  isSubstr_clean _ s hs

lemma countSkip_B_self (r : List Char) :
    countSkip PRETTY_PRINT_BEGIN_TARGET (PRETTY_PRINT_BEGIN_TARGET ++ r) 0
      = 1 + countSkip PRETTY_PRINT_BEGIN_TARGET r 0 :=
  countSkip_at_self _ _ r

lemma countSkip_E_self (r : List Char) :
    countSkip PRETTY_PRINT_END_TARGET (PRETTY_PRINT_END_TARGET ++ r) 0
      = 1 + countSkip PRETTY_PRINT_END_TARGET r 0 :=
  countSkip_at_self _ _ r

lemma splitSkip_B_self (r acc : List Char) :
    splitSkip PRETTY_PRINT_BEGIN_TARGET (PRETTY_PRINT_BEGIN_TARGET ++ r) 0 acc
      = acc.reverse :: splitSkip PRETTY_PRINT_BEGIN_TARGET r 0 [] :=
  splitSkip_at_self _ _ r acc

lemma splitSkip_E_self (r acc : List Char) :
    splitSkip PRETTY_PRINT_END_TARGET (PRETTY_PRINT_END_TARGET ++ r) 0 acc
      = acc.reverse :: splitSkip PRETTY_PRINT_END_TARGET r 0 [] :=
  splitSkip_at_self _ _ r acc

lemma isSubstr_in_B (a b : List Char) :
    isSubstr PRETTY_PRINT_BEGIN_TARGET (a ++ (PRETTY_PRINT_BEGIN_TARGET ++ b)) = true :=
  isSubstr_append_left _ _ a b

lemma isSubstr_in_E (a b : List Char) :
    isSubstr PRETTY_PRINT_END_TARGET (a ++ (PRETTY_PRINT_END_TARGET ++ b)) = true :=
  isSubstr_append_left _ _ a b

lemma chPrefix_Btail_clean (r : List Char) (hr : '\x00' ∉ r) :
    chPrefix PRETTY_PRINT_BEGIN_TARGET ('\x00' :: r) = false := by
  have h := chPrefix_mem_clean ['b', 'e', 'g', 'i', 'n', '\x00'] r (by simp) hr
  simp [PRETTY_PRINT_BEGIN_TARGET, chPrefix, h]

lemma chPrefix_Etail_clean (r : List Char) (hr : '\x00' ∉ r) :
    chPrefix PRETTY_PRINT_END_TARGET ('\x00' :: r) = false := by
  have h := chPrefix_mem_clean ['e', 'n', 'd', '\x00'] r (by simp) hr
  simp [PRETTY_PRINT_END_TARGET, chPrefix, h]

lemma countSkip_B_nulcons (r : List Char) (hr : '\x00' ∉ r) :
    countSkip PRETTY_PRINT_BEGIN_TARGET ('\x00' :: r) 0 = 0 := by
  simp only [countSkip, chPrefix_Btail_clean r hr]
  exact countSkip_clean_B r hr

lemma countSkip_E_nulcons (r : List Char) (hr : '\x00' ∉ r) :
    countSkip PRETTY_PRINT_END_TARGET ('\x00' :: r) 0 = 0 := by
  simp only [countSkip, chPrefix_Etail_clean r hr]
  exact countSkip_clean_E r hr

lemma splitSkip_step_ne (pat : List Char) (c : Char) (cs acc : List Char)
    (h : chPrefix pat (c :: cs) = false) :
    splitSkip pat (c :: cs) 0 acc = splitSkip pat cs 0 (c :: acc) := by
  simp only [splitSkip, h]

lemma chPrefix_B_cons_ne (c : Char) (rest : List Char) (h : c ≠ '\x00') :
    chPrefix PRETTY_PRINT_BEGIN_TARGET (c :: rest) = false :=
  chPrefix_head_ne _ rest h

lemma chPrefix_E_cons_ne (c : Char) (rest : List Char) (h : c ≠ '\x00') :
    chPrefix PRETTY_PRINT_END_TARGET (c :: rest) = false :=
  chPrefix_head_ne _ rest h

lemma splitSkip_B_over_E (after acc : List Char) (ha : '\x00' ∉ after) :
    splitSkip PRETTY_PRINT_BEGIN_TARGET (PRETTY_PRINT_END_TARGET ++ after) 0 acc
      = [acc.reverse ++ (PRETTY_PRINT_END_TARGET ++ after)] := by
  show splitSkip PRETTY_PRINT_BEGIN_TARGET ('\x00' :: 'e' :: 'n' :: 'd' :: '\x00' :: after) 0 acc
    = [acc.reverse ++ (PRETTY_PRINT_END_TARGET ++ after)]
  have h1 : chPrefix PRETTY_PRINT_BEGIN_TARGET
      ('\x00' :: 'e' :: 'n' :: 'd' :: '\x00' :: after) = false := by
    simp [PRETTY_PRINT_BEGIN_TARGET, chPrefix]
  rw [splitSkip_step_ne _ _ _ _ h1,
    splitSkip_step_ne _ _ _ _ (chPrefix_B_cons_ne 'e' _ (by decide)),
    splitSkip_step_ne _ _ _ _ (chPrefix_B_cons_ne 'n' _ (by decide)),
    splitSkip_step_ne _ _ _ _ (chPrefix_B_cons_ne 'd' _ (by decide)),
    splitSkip_step_ne _ _ _ _ (chPrefix_Btail_clean after ha),
    splitSkip_clean_B after _ ha]
  simp [PRETTY_PRINT_END_TARGET]

lemma countOcc_B_single (before target after : List Char) (hb : '\x00' ∉ before)
    (ht : '\x00' ∉ target) (ha : '\x00' ∉ after) :
    countOcc PRETTY_PRINT_BEGIN_TARGET
      (before ++ (PRETTY_PRINT_BEGIN_TARGET ++ (target ++ (PRETTY_PRINT_END_TARGET ++ after))))
      = 1 := by
  unfold countOcc
  rw [countSkip_walk_B before _ hb, countSkip_B_self, countSkip_walk_B target _ ht,
    countSkip_B_across_E after, countSkip_B_nulcons after ha]

lemma countOcc_E_single (before target after : List Char) (hb : '\x00' ∉ before)
    (ht : '\x00' ∉ target) (ha : '\x00' ∉ after) :
    countOcc PRETTY_PRINT_END_TARGET
      (before ++ (PRETTY_PRINT_BEGIN_TARGET ++ (target ++ (PRETTY_PRINT_END_TARGET ++ after))))
      = 1 := by
  unfold countOcc
  rw [countSkip_walk_E before _ hb,
    countSkip_E_across_B (target ++ (PRETTY_PRINT_END_TARGET ++ after))]
  cases hc : chPrefix ['e', 'n', 'd', '\x00'] (target ++ (PRETTY_PRINT_END_TARGET ++ after)) with
  | true =>
    have hc' : chPrefix ['e', 'n', 'd', '\x00']
        (target ++ ('\x00' :: 'e' :: 'n' :: 'd' :: '\x00' :: after)) = true := hc
    have htarget : target = ['e', 'n', 'd'] := end_tail_prefix_elim target after ht hc'
    subst htarget
    show countSkip PRETTY_PRINT_END_TARGET
        (PRETTY_PRINT_END_TARGET ++ ('e' :: 'n' :: 'd' :: '\x00' :: after)) 0 = 1
    rw [countSkip_E_self]
    rw [show ('e' :: 'n' :: 'd' :: '\x00' :: after : List Char)
        = ['e', 'n', 'd'] ++ ('\x00' :: after) from rfl]
    rw [countSkip_walk_E ['e', 'n', 'd'] _ (by simp), countSkip_E_nulcons after ha]
  | false =>
    have h1 : chPrefix PRETTY_PRINT_END_TARGET
        ('\x00' :: (target ++ (PRETTY_PRINT_END_TARGET ++ after))) = false := by
      show (if '\x00' = '\x00' then
          chPrefix ['e', 'n', 'd', '\x00'] (target ++ (PRETTY_PRINT_END_TARGET ++ after))
        else false) = false
      rw [if_pos rfl]
      exact hc
    simp only [countSkip, h1]
    rw [countSkip_walk_E target _ ht, countSkip_E_self, countSkip_clean_E after ha]

lemma pySplit_B_single (before target after : List Char) (hb : '\x00' ∉ before)
    (ht : '\x00' ∉ target) (ha : '\x00' ∉ after) :
    pySplit (before ++ (PRETTY_PRINT_BEGIN_TARGET ++ (target ++ (PRETTY_PRINT_END_TARGET ++ after))))
      PRETTY_PRINT_BEGIN_TARGET
      = [before, target ++ (PRETTY_PRINT_END_TARGET ++ after)] := by
  unfold pySplit
  rw [splitSkip_walk_B before _ [] hb, splitSkip_B_self, splitSkip_walk_B target _ [] ht,
    splitSkip_B_over_E after _ ha]
  simp

lemma pySplit_E_rest (target after : List Char) (ht : '\x00' ∉ target) (ha : '\x00' ∉ after) :
    pySplit (target ++ (PRETTY_PRINT_END_TARGET ++ after)) PRETTY_PRINT_END_TARGET
      = [target, after] := by
  unfold pySplit
  rw [splitSkip_walk_E target _ [] ht, splitSkip_E_self, splitSkip_clean_E after [] ha]
  simp

lemma pySplit_B_only (b0 r0 : List Char) (hb0 : '\x00' ∉ b0) (hr0 : '\x00' ∉ r0) :
    pySplit (b0 ++ (PRETTY_PRINT_BEGIN_TARGET ++ r0)) PRETTY_PRINT_BEGIN_TARGET
      = [b0, r0] := by
  unfold pySplit
  rw [splitSkip_walk_B b0 _ [] hb0, splitSkip_B_self, splitSkip_clean_B r0 [] hr0]
  simp

lemma isSubstr_E_begin_line (b0 r0 : List Char) (hb0 : '\x00' ∉ b0) (hr0 : '\x00' ∉ r0) :
    isSubstr PRETTY_PRINT_END_TARGET (b0 ++ (PRETTY_PRINT_BEGIN_TARGET ++ r0)) = false := by
  rw [isSubstr_walk_E b0 _ hb0, isSubstr_E_across_B r0,
    chPrefix_mem_clean ['e', 'n', 'd', '\x00'] r0 (by simp) hr0, isSubstr_clean_E r0 hr0]
  rfl

lemma pySplit_nl1 (q : List Char) (h : '\n' ∉ q) : pySplit q ['\n'] = [q] := by
  unfold pySplit
  rw [splitSkip_clean [] q [] h]
  simp

lemma pySplit_nl3 (l0 l1 l2 : List Char) (h0 : '\n' ∉ l0) (h1 : '\n' ∉ l1)
    (h2 : '\n' ∉ l2) :
    pySplit (l0 ++ (['\n'] ++ (l1 ++ (['\n'] ++ l2)))) ['\n'] = [l0, l1, l2] := by
  unfold pySplit
  rw [splitSkip_walk [] l0 _ [] h0, splitSkip_at_self '\n' [] _ _,
    splitSkip_walk [] l1 _ [] h1, splitSkip_at_self '\n' [] _ _,
    splitSkip_clean [] l2 [] h2]
  simp

lemma countOcc_B_multi (b0 r0 l1 p2 a2 : List Char) (hb0 : '\x00' ∉ b0)
    (hr0 : '\x00' ∉ r0) (hl1 : '\x00' ∉ l1) (hp2 : '\x00' ∉ p2) (ha2 : '\x00' ∉ a2) :
    countOcc PRETTY_PRINT_BEGIN_TARGET
      (b0 ++ (PRETTY_PRINT_BEGIN_TARGET ++ (r0 ++ (['\n'] ++ (l1 ++ (['\n'] ++
        (p2 ++ (PRETTY_PRINT_END_TARGET ++ a2)))))))) = 1 := by
  unfold countOcc
  rw [countSkip_walk_B b0 _ hb0, countSkip_B_self, countSkip_walk_B r0 _ hr0,
    countSkip_walk_B ['\n'] _ (by simp), countSkip_walk_B l1 _ hl1,
    countSkip_walk_B ['\n'] _ (by simp), countSkip_walk_B p2 _ hp2,
    countSkip_B_across_E a2, countSkip_B_nulcons a2 ha2]

lemma countOcc_E_multi (b0 r0 l1 p2 a2 : List Char) (hb0 : '\x00' ∉ b0)
    (hr0 : '\x00' ∉ r0) (hl1 : '\x00' ∉ l1) (hp2 : '\x00' ∉ p2) (ha2 : '\x00' ∉ a2) :
    countOcc PRETTY_PRINT_END_TARGET
      (b0 ++ (PRETTY_PRINT_BEGIN_TARGET ++ (r0 ++ (['\n'] ++ (l1 ++ (['\n'] ++
        (p2 ++ (PRETTY_PRINT_END_TARGET ++ a2)))))))) = 1 := by
  unfold countOcc
  rw [countSkip_walk_E b0 _ hb0,
    countSkip_E_across_B (r0 ++ (['\n'] ++ (l1 ++ (['\n'] ++
      (p2 ++ (PRETTY_PRINT_END_TARGET ++ a2))))))]
  have hpr : chPrefix ['e', 'n', 'd', '\x00']
      (r0 ++ ('\n' :: (l1 ++ (['\n'] ++ (p2 ++ (PRETTY_PRINT_END_TARGET ++ a2)))))) = false :=
    end_tail_prefix_nl r0 _ hr0
  have h1 : chPrefix PRETTY_PRINT_END_TARGET
      ('\x00' :: (r0 ++ (['\n'] ++ (l1 ++ (['\n'] ++
        (p2 ++ (PRETTY_PRINT_END_TARGET ++ a2))))))) = false := by
    simp only [PRETTY_PRINT_END_TARGET, chPrefix, if_pos rfl]
    exact hpr
  simp only [countSkip, h1]
  rw [countSkip_walk_E r0 _ hr0, countSkip_walk_E ['\n'] _ (by simp),
    countSkip_walk_E l1 _ hl1, countSkip_walk_E ['\n'] _ (by simp),
    countSkip_walk_E p2 _ hp2, countSkip_E_self, countSkip_clean_E a2 ha2]

lemma first_if_true {α : Type} {t e : α} : (if false = false then t else e) = t :=
  if_pos rfl

lemma true_ne_false_if {α : Type} {t e : α} : (if true = false then t else e) = e :=
  if_neg (by simp)

lemma false_ne_true_if {α : Type} {t e : α} : (if false = true then t else e) = e :=
  if_neg (by simp)

lemma formatLines_nil : formatLines [] false = .ok [] := rfl

lemma formatLines_single (before target after : List Char)
    (hb : '\x00' ∉ before) (ht : '\x00' ∉ target) (ha : '\x00' ∉ after)
    (hrs : rstripSpaces (before ++ (PRETTY_PRINT_BEGIN_TARGET ++
        (target ++ (PRETTY_PRINT_END_TARGET ++ after))))
      = before ++ (PRETTY_PRINT_BEGIN_TARGET ++ (target ++ (PRETTY_PRINT_END_TARGET ++ after)))) :
    formatLines [before ++ (PRETTY_PRINT_BEGIN_TARGET ++
        (target ++ (PRETTY_PRINT_END_TARGET ++ after)))] false
      = .ok [before ++ target ++ after, spaces before.length ++ carets target.length] := by
  have hassoc : before ++ (PRETTY_PRINT_BEGIN_TARGET ++ (target ++ (PRETTY_PRINT_END_TARGET ++ after)))
      = (before ++ (PRETTY_PRINT_BEGIN_TARGET ++ target)) ++ (PRETTY_PRINT_END_TARGET ++ after) := by
    simp [List.append_assoc]
  have hEin : isSubstr PRETTY_PRINT_END_TARGET
      (before ++ (PRETTY_PRINT_BEGIN_TARGET ++ (target ++ (PRETTY_PRINT_END_TARGET ++ after))))
      = true := by
    rw [hassoc]
    exact isSubstr_in_E _ _
  rw [formatLines.eq_def]
  dsimp only
  rw [hrs]
  rw [first_if_true]
  rw [isSubstr_in_B before (target ++ (PRETTY_PRINT_END_TARGET ++ after)), if_pos rfl]
  rw [hEin, if_pos rfl]
  rw [pySplit_B_single before target after hb ht ha]
  dsimp only
  rw [pySplit_E_rest target after ht ha]
  dsimp only
  rw [formatLines_nil]

lemma formatLines_line2 (p2 a2 : List Char) (hp2 : '\x00' ∉ p2) (ha2 : '\x00' ∉ a2)
    (hrs2 : rstripSpaces (p2 ++ (PRETTY_PRINT_END_TARGET ++ a2))
      = p2 ++ (PRETTY_PRINT_END_TARGET ++ a2))
    (hls2 : lstripSpaces (p2 ++ (PRETTY_PRINT_END_TARGET ++ a2))
      = p2 ++ (PRETTY_PRINT_END_TARGET ++ a2)) :
    formatLines [p2 ++ (PRETTY_PRINT_END_TARGET ++ a2)] true
      = .ok [p2 ++ a2, carets p2.length] := by
  rw [formatLines.eq_def]
  dsimp only
  rw [hrs2, hls2]
  rw [true_ne_false_if]
  rw [isSubstr_in_E p2 a2, if_pos rfl]
  rw [pySplit_E_rest p2 a2 hp2 ha2]
  dsimp only
  rw [formatLines_nil]
  dsimp only
  rw [Nat.sub_self]
  simp [spaces]

lemma formatLines_line1 (l1 p2 a2 : List Char) (hl1 : '\x00' ∉ l1)
    (hp2 : '\x00' ∉ p2) (ha2 : '\x00' ∉ a2)
    (hrs1 : rstripSpaces l1 = l1) (hls1 : lstripSpaces l1 = l1)
    (hrs2 : rstripSpaces (p2 ++ (PRETTY_PRINT_END_TARGET ++ a2))
      = p2 ++ (PRETTY_PRINT_END_TARGET ++ a2))
    (hls2 : lstripSpaces (p2 ++ (PRETTY_PRINT_END_TARGET ++ a2))
      = p2 ++ (PRETTY_PRINT_END_TARGET ++ a2)) :
    formatLines [l1, p2 ++ (PRETTY_PRINT_END_TARGET ++ a2)] true
      = .ok [l1, carets l1.length, p2 ++ a2, carets p2.length] := by
  rw [formatLines.eq_def]
  dsimp only
  rw [hrs1, hls1]
  rw [true_ne_false_if]
  rw [isSubstr_clean_E l1 hl1]
  rw [false_ne_true_if]
  rw [formatLines_line2 p2 a2 hp2 ha2 hrs2 hls2]
  dsimp only
  rw [Nat.sub_self]
  simp [spaces]

lemma formatLines_multi (b0 r0 l1 p2 a2 : List Char)
    (hb0 : '\x00' ∉ b0) (hr0 : '\x00' ∉ r0) (hl1 : '\x00' ∉ l1)
    (hp2 : '\x00' ∉ p2) (ha2 : '\x00' ∉ a2)
    (hrs0 : rstripSpaces (b0 ++ (PRETTY_PRINT_BEGIN_TARGET ++ r0))
      = b0 ++ (PRETTY_PRINT_BEGIN_TARGET ++ r0))
    (hrs1 : rstripSpaces l1 = l1) (hls1 : lstripSpaces l1 = l1)
    (hrs2 : rstripSpaces (p2 ++ (PRETTY_PRINT_END_TARGET ++ a2))
      = p2 ++ (PRETTY_PRINT_END_TARGET ++ a2))
    (hls2 : lstripSpaces (p2 ++ (PRETTY_PRINT_END_TARGET ++ a2))
      = p2 ++ (PRETTY_PRINT_END_TARGET ++ a2)) :
    formatLines [b0 ++ (PRETTY_PRINT_BEGIN_TARGET ++ r0), l1,
        p2 ++ (PRETTY_PRINT_END_TARGET ++ a2)] false
      = .ok [b0 ++ r0, spaces b0.length ++ carets r0.length, l1, carets l1.length,
          p2 ++ a2, carets p2.length] := by
  rw [formatLines.eq_def]
  dsimp only
  rw [hrs0]
  rw [first_if_true]
  rw [isSubstr_in_B b0 r0, if_pos rfl]
  rw [isSubstr_E_begin_line b0 r0 hb0 hr0]
  rw [false_ne_true_if]
  rw [pySplit_B_only b0 r0 hb0 hr0]
  dsimp only
  rw [formatLines_line1 l1 p2 a2 hl1 hp2 ha2 hrs1 hls1 hrs2 hls2]

/-- Claim C3: properties of `QueryError.location`. (1) The
internal-consistency error is raised exactly when the rendered text does
not contain exactly one begin marker and exactly one end marker. (2) On a
single-line rendering whose bracketed region sits between marker-free,
newline-free pieces (with no trailing spaces), the output is the line with
markers stripped plus a caret line whose leading spaces equal the length
of the text before the begin marker and whose caret count equals the
length of the bracketed text. (3) On a three-line rendering whose
bracketed region spans all three lines (pieces marker-free, newline-free
and space-clean at the stripped ends), the first line gets carets from the
bracket point to the end of the line, the strictly-between line gets a
full-line caret row, and the last line gets carets from the line start to
the end marker. -/
theorem c3_location :
    (∀ q : List Char,
      (location q = .error .internal ↔
        ¬(countOcc PRETTY_PRINT_BEGIN_TARGET q = 1 ∧
          countOcc PRETTY_PRINT_END_TARGET q = 1))) ∧
    (∀ before target after : List Char,
      '\x00' ∉ before → '\x00' ∉ target → '\x00' ∉ after →
      '\n' ∉ before → '\n' ∉ target → '\n' ∉ after →
      rstripSpaces (before ++ (PRETTY_PRINT_BEGIN_TARGET ++
          (target ++ (PRETTY_PRINT_END_TARGET ++ after))))
        = before ++ (PRETTY_PRINT_BEGIN_TARGET ++ (target ++ (PRETTY_PRINT_END_TARGET ++ after))) →
      location (before ++ (PRETTY_PRINT_BEGIN_TARGET ++
          (target ++ (PRETTY_PRINT_END_TARGET ++ after))))
        = .ok ((before ++ target ++ after) ++
            '\n' :: (spaces before.length ++ carets target.length))) ∧
    (∀ b0 r0 l1 p2 a2 : List Char,
      '\x00' ∉ b0 → '\x00' ∉ r0 → '\x00' ∉ l1 → '\x00' ∉ p2 → '\x00' ∉ a2 →
      '\n' ∉ b0 → '\n' ∉ r0 → '\n' ∉ l1 → '\n' ∉ p2 → '\n' ∉ a2 →
      rstripSpaces (b0 ++ (PRETTY_PRINT_BEGIN_TARGET ++ r0))
        = b0 ++ (PRETTY_PRINT_BEGIN_TARGET ++ r0) →
      rstripSpaces l1 = l1 → lstripSpaces l1 = l1 →
      rstripSpaces (p2 ++ (PRETTY_PRINT_END_TARGET ++ a2))
        = p2 ++ (PRETTY_PRINT_END_TARGET ++ a2) →
      lstripSpaces (p2 ++ (PRETTY_PRINT_END_TARGET ++ a2))
        = p2 ++ (PRETTY_PRINT_END_TARGET ++ a2) →
      location ((b0 ++ (PRETTY_PRINT_BEGIN_TARGET ++ r0)) ++ (['\n'] ++ (l1 ++ (['\n'] ++
          (p2 ++ (PRETTY_PRINT_END_TARGET ++ a2))))))
        = .ok ((b0 ++ r0) ++ '\n' :: ((spaces b0.length ++ carets r0.length) ++ '\n' ::
            (l1 ++ '\n' :: (carets l1.length ++ '\n' ::
              ((p2 ++ a2) ++ '\n' :: carets p2.length)))))) := by
  refine ⟨?_, ?_, ?_⟩
  · intro q
    constructor
    · intro h hc
      have hg1 : countOcc PRETTY_PRINT_BEGIN_TARGET q = countOcc PRETTY_PRINT_END_TARGET q :=
        hc.1.trans hc.2.symm
      rcases formatLines_ok_or_unpack (pySplit q ['\n']) false with ⟨r, hr⟩ | hr <;>
        simp [location, hg1, hc.2, hr] at h
    · intro hn
      have hg : ¬(countOcc PRETTY_PRINT_BEGIN_TARGET q = countOcc PRETTY_PRINT_END_TARGET q ∧
          countOcc PRETTY_PRINT_END_TARGET q = 1) := by
        intro hg
        exact hn ⟨hg.1.trans hg.2, hg.2⟩
      simp [location, hg]
  · intro before target after hb ht ha hnb hnt hna hrs
    have hcB := countOcc_B_single before target after hb ht ha
    have hcE := countOcc_E_single before target after hb ht ha
    have hnl : '\n' ∉ (before ++ (PRETTY_PRINT_BEGIN_TARGET ++
        (target ++ (PRETTY_PRINT_END_TARGET ++ after)))) := by
      intro hmem
      simp only [List.mem_append] at hmem
      rcases hmem with h | h | h | h | h
      · exact hnb h
      · simp [PRETTY_PRINT_BEGIN_TARGET] at h
      · exact hnt h
      · simp [PRETTY_PRINT_END_TARGET] at h
      · exact hna h
    have hfmt := formatLines_single before target after hb ht ha hrs
    simp only [location]
    rw [if_pos ⟨hcB.trans hcE.symm, hcE⟩, pySplit_nl1 _ hnl, hfmt]
    simp [joinNL]
  · intro b0 r0 l1 p2 a2 hb0 hr0 hl1 hp2 ha2 hnb0 hnr0 hnl1 hnp2 hna2 hrs0 hrs1 hls1 hrs2 hls2
    have hqassoc : (b0 ++ (PRETTY_PRINT_BEGIN_TARGET ++ r0)) ++ (['\n'] ++ (l1 ++ (['\n'] ++
        (p2 ++ (PRETTY_PRINT_END_TARGET ++ a2)))))
        = b0 ++ (PRETTY_PRINT_BEGIN_TARGET ++ (r0 ++ (['\n'] ++ (l1 ++ (['\n'] ++
            (p2 ++ (PRETTY_PRINT_END_TARGET ++ a2))))))) := by
      simp [List.append_assoc]
    have hcB : countOcc PRETTY_PRINT_BEGIN_TARGET
        ((b0 ++ (PRETTY_PRINT_BEGIN_TARGET ++ r0)) ++ (['\n'] ++ (l1 ++ (['\n'] ++
          (p2 ++ (PRETTY_PRINT_END_TARGET ++ a2)))))) = 1 := by
      rw [hqassoc]
      exact countOcc_B_multi b0 r0 l1 p2 a2 hb0 hr0 hl1 hp2 ha2
    have hcE : countOcc PRETTY_PRINT_END_TARGET
        ((b0 ++ (PRETTY_PRINT_BEGIN_TARGET ++ r0)) ++ (['\n'] ++ (l1 ++ (['\n'] ++
          (p2 ++ (PRETTY_PRINT_END_TARGET ++ a2)))))) = 1 := by
      rw [hqassoc]
      exact countOcc_E_multi b0 r0 l1 p2 a2 hb0 hr0 hl1 hp2 ha2
    have hnlL0 : '\n' ∉ (b0 ++ (PRETTY_PRINT_BEGIN_TARGET ++ r0)) := by
      intro hmem
      simp only [List.mem_append] at hmem
      rcases hmem with h | h | h
      · exact hnb0 h
      · simp [PRETTY_PRINT_BEGIN_TARGET] at h
      · exact hnr0 h
    have hnlL2 : '\n' ∉ (p2 ++ (PRETTY_PRINT_END_TARGET ++ a2)) := by
      intro hmem
      simp only [List.mem_append] at hmem
      rcases hmem with h | h | h
      · exact hnp2 h
      · simp [PRETTY_PRINT_END_TARGET] at h
      · exact hna2 h
    have hsplit := pySplit_nl3 (b0 ++ (PRETTY_PRINT_BEGIN_TARGET ++ r0)) l1
      (p2 ++ (PRETTY_PRINT_END_TARGET ++ a2)) hnlL0 hnl1 hnlL2
    have hfmt := formatLines_multi b0 r0 l1 p2 a2 hb0 hr0 hl1 hp2 ha2 hrs0 hrs1 hls1 hrs2 hls2
    simp only [location]
    rw [if_pos ⟨hcB.trans hcE.symm, hcE⟩, hsplit, hfmt]
    simp [joinNL]

/-- Witness for C3 at concrete inputs: a markerless text trips the
internal-consistency check; the spec's `add(1, 2)` example renders with
seven leading spaces and one caret under the `2`; a three-line bracketed
region renders with carets on all three lines. -/
theorem c3_location_witness :
    (location ['x'] = .error .internal ↔
      ¬(countOcc PRETTY_PRINT_BEGIN_TARGET ['x'] = 1 ∧
        countOcc PRETTY_PRINT_END_TARGET ['x'] = 1)) ∧
    location (['a', 'd', 'd', '(', '1', ',', ' '] ++ (PRETTY_PRINT_BEGIN_TARGET ++
        (['2'] ++ (PRETTY_PRINT_END_TARGET ++ [')']))))
      = .ok ((['a', 'd', 'd', '(', '1', ',', ' '] ++ ['2'] ++ [')']) ++
          '\n' :: (spaces (['a', 'd', 'd', '(', '1', ',', ' '] : List Char).length ++
            carets (['2'] : List Char).length)) ∧
    location ((['f', '('] ++ (PRETTY_PRINT_BEGIN_TARGET ++ ['x', ','])) ++ (['\n'] ++
        (['y', ','] ++ (['\n'] ++ (['z', ')'] ++ (PRETTY_PRINT_END_TARGET ++ []))))))
      = .ok ((['f', '('] ++ ['x', ',']) ++ '\n' ::
          ((spaces (['f', '('] : List Char).length ++ carets (['x', ','] : List Char).length) ++
            '\n' :: (['y', ','] ++ '\n' :: (carets (['y', ','] : List Char).length ++ '\n' ::
              ((['z', ')'] ++ []) ++ '\n' :: carets (['z', ')'] : List Char).length))))) :=
  ⟨c3_location.1 ['x'],
   c3_location.2.1 ['a', 'd', 'd', '(', '1', ',', ' '] ['2'] [')'] (by decide) (by decide)
     (by decide) (by decide) (by decide) (by decide) (by decide),
   c3_location.2.2 ['f', '('] ['x', ','] ['y', ','] ['z', ')'] [] (by decide) (by decide)
     (by decide) (by decide) (by decide) (by decide) (by decide) (by decide) (by decide)
     (by decide) (by decide) (by decide) (by decide) (by decide) (by decide)⟩
